import Mathlib

/-!
# spoofmap: a correlation registry for spoofed probes

A shallow embedding of `src/spoofmap/spoofMap.go`.

* A Go `map[uint32]V` is a finite partial map `Finmap` from `Nat` keys to `V`.
  No arithmetic is done on keys, so the bound `2 ^ 32` plays no part and the
  results hold for all keys.  The values are pointers to records that no two
  entries share, so a map of records carries the same information.
  Go leaves the iteration order of `range` unspecified, so every loop over a
  map takes the visiting order as an explicit list of keys; an entry deleted
  before it is reached is not produced.
* `time.Time` is an integer count of nanoseconds, `time.Duration` the
  saturating 64-bit difference of two of them.  Every call of `time.Now` or
  `time.Since` in the source is one clock reading, passed in as an argument.
* A Go `error` result is an `Option`: `none` is `nil`.
* The mutex is held for the whole body of each operation, so each operation is
  one atomic transition of the registry.
-/

set_option linter.dupNamespace false

namespace spoofmap

/-! ## Data model -/

/-! A `time.Time` is the clock reading in nanoseconds, an `Int`; a
`time.Duration` is a count of nanoseconds in the `int64` range, an `Int`. -/

/-- The constant `time.Second`. -/
def Second : Int := 1000000000

/-- Largest `time.Duration`. -/
def maxDuration : Int := 2 ^ 63 - 1

/-- Smallest `time.Duration`. -/
def minDuration : Int := -(2 ^ 63)

/-- The call `time.Since(t)` when the clock reads `now`: `now.Sub(t)`, which
saturates at the ends of the `int64` range. -/
def Since (now t : Int) : Int :=
  if now - t > maxDuration then maxDuration
  else if now - t < minDuration then minDuration
  else now - t

/-- Modelled from the spec: `dm.Spoof` is declared in package `datamodel`, which
is not part of the sources at hand.  The registry reads only `Id`; the other
fields are carried along unmodified. -/
structure Spoof where
  Id : Nat
  Ip : Nat
  Sip : Nat
  Dst : Nat
deriving DecidableEq, Repr

/-- Modelled from the spec: `dm.Probe` is declared in package `datamodel`, which
is not part of the sources at hand.  The registry reads only `ProbeId` (the
correlation id) and `SenderIp` (the destination); `body` stands for the rest. -/
structure Probe where
  ProbeId : Nat
  SenderIp : Nat
  body : List Nat
deriving DecidableEq, Repr

/-- The errors of the package, and the errors a `Sender` may hand back. -/
inductive Error where
  | ErrorIDInUse
  | ErrorSpoofNotFound
  | SendError (code : Nat)
deriving DecidableEq, Repr

export Error (ErrorIDInUse ErrorSpoofNotFound)

/-- The record `spoof`: `probe` is a nullable pointer, `t` the creation time. -/
structure spoof where
  probe : Option Probe
  t : Int
  spoof : Spoof
deriving DecidableEq, Repr

/-- A Go map keyed by `uint32`. -/
abbrev GoMap (V : Type) := Finmap (fun _ : Nat => V)

/-- The record `spoofMap`, reduced to the state the operations read and write:
the map `spoofs`.  The mutex makes each operation atomic; `transport` is an
argument of the dispatcher tick. -/
structure spoofMap where
  spoofs : GoMap spoof
deriving DecidableEq

/-- The registry built by `New`: `make(map[uint32]*spoof)`. -/
def New : spoofMap := ⟨∅⟩

/-! ## Register and Receive -/

/-- The method `Register`. `tSince` is the clock reading taken by `time.Since`,
`tNow` the one taken by `time.Now()` when the record is built. -/
def Register (s : spoofMap) (sp : Spoof) (tSince tNow : Int) : Option Error × spoofMap :=
  match s.spoofs.lookup sp.Id with
  | some spf =>
    if Since tSince spf.t > Second * 60 then
      (none, { s with spoofs := s.spoofs.insert sp.Id { probe := none, t := tNow, spoof := sp } })
    else
      (some ErrorIDInUse, s)
  | none =>
    (none, { s with spoofs := s.spoofs.insert sp.Id { probe := none, t := tNow, spoof := sp } })

/-- The method `Receive`: the probe is copied and the copy attached. -/
def Receive (s : spoofMap) (p : Probe) : Option Error × spoofMap :=
  match s.spoofs.lookup p.ProbeId with
  | some sp =>
    let pr := p
    (none, { s with spoofs := s.spoofs.insert p.ProbeId { sp with probe := some pr } })
  | none => (some ErrorSpoofNotFound, s)

/-! ## Iterating over a map -/

/-- The list `order` is an iteration order of the map `m`: a `range` over `m`
visits every key of `m` once, in the order listed. -/
def IterOrder {V : Type} (order : List Nat) (m : GoMap V) : Prop :=
  order.Nodup ∧ order.toFinset = m.keys

instance {V : Type} (order : List Nat) (m : GoMap V) : Decidable (IterOrder order m) := by
  unfold IterOrder; infer_instance

/-! ## The dispatcher tick (`sendSpoofs`, the body of `case <-t.C`) -/

/-- The interface `Sender`: a transport with state `σ` and its method `Send`. -/
structure Sender (σ : Type) where
  Send : σ → List Probe → Nat → Option Error × σ

/-- One pass of the first loop, `for id, spoof := range s.spoofs`, at key `id`.
The pair holds `s.spoofs` and `dests`.  A key with no entry is not produced
by `range`. -/
def scanStep (acc : GoMap spoof × GoMap (List Probe)) (id : Nat) :
    GoMap spoof × GoMap (List Probe) :=
  match acc.1.lookup id with
  | none => acc
  | some spoof =>
    match spoof.probe with
    | some probe =>
      (Finmap.erase id (acc.1.insert id { spoof with probe := none }),
        acc.2.insert probe.SenderIp (((acc.2.lookup probe.SenderIp).getD []) ++ [probe]))
    | none => acc

/-- The first loop of the tick, started with `dests = make(...)`. -/
def scan (order : List Nat) (spoofs : GoMap spoof) : GoMap spoof × GoMap (List Probe) :=
  order.foldl scanStep (spoofs, ∅)

/-- State of the second loop: `dests`, the transport, the calls of `Send` made
so far (oldest first, each with its batch and destination) and the errors
handed to `log.Error`. -/
structure SendState (σ : Type) where
  dests : GoMap (List Probe)
  transport : σ
  calls : List (List Probe × Nat)
  logged : List Error

/-- One pass of the second loop, `for ip, probes := range dests`, at key `ip`. -/
def sendStep {σ : Type} (T : Sender σ) (st : SendState σ) (ip : Nat) : SendState σ :=
  match st.dests.lookup ip with
  | none => st
  | some probes =>
    match T.Send st.transport probes ip with
    | (some err, tr) =>
      { st with transport := tr, calls := st.calls ++ [(probes, ip)],
                logged := st.logged ++ [err] }
    | (none, tr) =>
      { st with dests := st.dests.erase ip, transport := tr,
                calls := st.calls ++ [(probes, ip)] }

/-- What one dispatcher tick leaves behind. -/
structure TickResult (σ : Type) where
  state : spoofMap
  sends : SendState σ

/-- One dispatcher tick: both loops run inside `s.Lock()` ... `s.Unlock()`.
`order` is the iteration order of `s.spoofs`, `destOrder` that of `dests`. -/
def sendSpoofsTick {σ : Type} (T : Sender σ) (tr : σ) (s : spoofMap)
    (order destOrder : List Nat) : TickResult σ :=
  let r := scan order s.spoofs
  { state := { s with spoofs := r.1 },
    sends := destOrder.foldl (sendStep T) { dests := r.2, transport := tr, calls := [], logged := [] } }

/-! ## The janitor tick (`cleanOld`, the body of `case <-t.C`) -/

/-- The loop of the janitor, entered with the counter at `count`.  `clock n` is
the reading `time.Since` takes when the counter stands at `n`. -/
def cleanLoop (clock : Nat → Int) : List Nat → Nat → GoMap spoof → GoMap spoof
  | [], _, m => m
  | id :: rest, count, m =>
    match m.lookup id with
    | none => cleanLoop clock rest count m
    | some spoof =>
      let m1 :=
        if Since (clock count) spoof.t > Second * 60 then
          Finmap.erase id (m.insert id { spoof with probe := none })
        else m
      if count + 1 = 10000 then m1 else cleanLoop clock rest (count + 1) m1

/-- One janitor tick: `count = 0`, then the loop. -/
def cleanOldTick (s : spoofMap) (order : List Nat) (clock : Nat → Int) : spoofMap :=
  { s with spoofs := cleanLoop clock order 0 s.spoofs }

/-! ## Reachable registries -/

/-- Registries reachable from the one `New` builds by calls of `Register` and
`Receive` and by dispatcher and janitor ticks, where every `Register` is
called with an id satisfying `allowed`. -/
inductive ReachableVia (allowed : Nat → Prop) : spoofMap → Prop where
  | init : ReachableVia allowed New
  | register (s : spoofMap) (sp : Spoof) (tSince tNow : Int) :
      ReachableVia allowed s → allowed sp.Id →
      ReachableVia allowed (Register s sp tSince tNow).2
  | receive (s : spoofMap) (p : Probe) :
      ReachableVia allowed s → ReachableVia allowed (Receive s p).2
  | dispatch {σ : Type} (T : Sender σ) (tr : σ) (s : spoofMap) (order destOrder : List Nat) :
      ReachableVia allowed s → IterOrder order s.spoofs →
      IterOrder destOrder (scan order s.spoofs).2 →
      ReachableVia allowed (sendSpoofsTick T tr s order destOrder).state
  | janitor (s : spoofMap) (order : List Nat) (clock : Nat → Int) :
      ReachableVia allowed s → IterOrder order s.spoofs →
      ReachableVia allowed (cleanOldTick s order clock)

/-- Registries reachable from the one `New` builds. -/
def Reachable : spoofMap → Prop := ReachableVia (fun _ => True)

/-! ## The dispatcher tick as a sequence of events -/

/-- What a dispatcher tick does to the mutex and to the transport. -/
inductive Event where
  | Lock
  | Unlock
  | Send (probes : List Probe) (ip : Nat)
deriving DecidableEq, Repr

/-- The events of one dispatcher tick in program order: `s.Lock()` (line 105),
the calls `s.transport.Send(probes, ip)` of the second loop (line 115), and
`s.Unlock()` (line 121). -/
def sendSpoofsEvents {σ : Type} (T : Sender σ) (tr : σ) (s : spoofMap)
    (order destOrder : List Nat) : List Event :=
  Event.Lock ::
    ((sendSpoofsTick T tr s order destOrder).sends.calls.map (fun c => Event.Send c.1 c.2)
      ++ [Event.Unlock])

/-- Whether the mutex is held once the events listed have happened, starting
from a free mutex. -/
def lockHeld (evs : List Event) : Bool :=
  evs.foldl
    (fun held e =>
      match e with
      | Event.Lock => true
      | Event.Unlock => false
      | Event.Send _ _ => held)
    false

/-! ## Calls of clients -/

/-- A call a client makes: `Register` with its two clock readings, or
`Receive`. -/
inductive Call where
  | register (sp : Spoof) (tSince tNow : Int)
  | receive (p : Probe)

/-- The id a call concerns. -/
def Call.id : Call → Nat
  | Call.register sp _ _ => sp.Id
  | Call.receive p => p.ProbeId

/-- Making the call on the registry `s`. -/
def Call.run : Call → spoofMap → Option Error × spoofMap
  | Call.register sp tSince tNow, s => Register s sp tSince tNow
  | Call.receive p, s => Receive s p

/-! ## The body of the janitor loop -/

/-- The map after the body of the janitor loop ran at key `id`, whose record is
`spf`, with `time.Since` reading the clock at `now` (lines 140 to 143). -/
def sweepAt (now : Int) (id : Nat) (spf : spoof) (m : GoMap spoof) : GoMap spoof :=
  if Since now spf.t > Second * 60 then
    Finmap.erase id (m.insert id { spf with probe := none })
  else m

/-! ## Reading a registry -/

/-- The response attached to the Registration under key `k`: `none` when there
is no Registration there or its `probe` is `nil`. -/
def response (m : GoMap spoof) (k : Nat) : Option Probe :=
  (m.lookup k).bind (fun spf => spf.probe)

/-- The responses a scan in the order `order` collects for destination `ip`. -/
def batchFor (m : GoMap spoof) (order : List Nat) (ip : Nat) : List Probe :=
  (order.filterMap (response m)).filter (fun p => p.SenderIp = ip)

/-- Whether the Registration under key `k` holds a response bound for `ip`. -/
def boundFor (m : GoMap spoof) (ip : Nat) (k : Nat) : Bool :=
  match response m k with
  | some p => decide (p.SenderIp = ip)
  | none => false

/-- Every Registration sits under the id of its request, and a response it
holds carries that id too. -/
def WellKeyed (s : spoofMap) : Prop :=
  ∀ k spf, s.spoofs.lookup k = some spf →
    spf.spoof.Id = k ∧ ∀ p, spf.probe = some p → p.ProbeId = k

/-! ## Sample inputs -/

/-- A spoof request with id 2. -/
def spA : Spoof := ⟨2, 167772161, 167772162, 167772163⟩

/-- A second request with the same id 2 and other contents. -/
def spB : Spoof := ⟨2, 3232235777, 3232235778, 3232235779⟩

/-- The registry after `Register(spA)` at time 0 on the registry `New` builds. -/
def regA : spoofMap := (Register New spA 0 0).2

/-- A response for id 2, to be forwarded to address 10. -/
def prA : Probe := ⟨2, 10, [7, 7]⟩

/-- The registry `regA` after the response `prA` arrived. -/
def regAp : spoofMap := (Receive regA prA).2

/-- Four Registrations, ids 1 to 4, created at times 0 to 3. -/
def regFour : spoofMap :=
  (Register (Register (Register (Register New ⟨1, 0, 0, 0⟩ 0 0).2
    ⟨2, 0, 0, 0⟩ 1 1).2 ⟨3, 0, 0, 0⟩ 2 2).2 ⟨4, 0, 0, 0⟩ 3 3).2

/-- The registry `regFour` after responses arrived for ids 1 and 2, bound for
address 10, and for id 3, bound for address 11; id 4 has none. -/
def regMix : spoofMap :=
  (Receive (Receive (Receive regFour ⟨1, 10, [1]⟩).2 ⟨2, 10, [2]⟩).2 ⟨3, 11, [3]⟩).2

/-- A Sender that counts its calls and fails for destination 10. -/
def failTen : Sender Nat :=
  ⟨fun n _ ip => (if ip = 10 then some (Error.SendError 1) else none, n + 1)⟩

/-- The registry `regMix` after a dispatcher tick with the Sender `failTen`. -/
def regSent : spoofMap := (sendSpoofsTick failTen 0 regMix [4, 2, 1, 3] [11, 10]).state

/-- The registry `regSent` after a janitor tick at time `100 * Second`. -/
def regSwept : spoofMap := cleanOldTick regSent [4] (fun _ => 100 * Second)

/-- Scenario 3: the registry after `Register(id=3)` at time 0. -/
def regThree : spoofMap := (Register New ⟨3, 0, 0, 0⟩ 0 0).2

/-- Two Registrations that both hold a response: id 1 created at time 0, id 2
created at time `50 * Second`. -/
def regTwoAges : spoofMap :=
  (Receive (Receive (Register (Register New ⟨1, 0, 0, 0⟩ 0 0).2
    ⟨2, 0, 0, 0⟩ (50 * Second) (50 * Second)).2 ⟨1, 10, [1]⟩).2 ⟨2, 11, [2]⟩).2

/-- A Sender without state that never fails. -/
def neverFails : Sender Unit := ⟨fun u _ _ => (none, u)⟩

/-! ## Time -/

/-- Saturation does not change the comparison with sixty seconds. -/
theorem Since_gt_iff (now t : Int) : Since now t > Second * 60 ↔ now - t > Second * 60 := by
  unfold Since maxDuration minDuration Second
  split_ifs <;> omega

/-! ## Register -/

theorem Register_absent (s : spoofMap) (sp : Spoof) (tSince tNow : Int)
    (h : s.spoofs.lookup sp.Id = none) :
    Register s sp tSince tNow =
      (none, ⟨s.spoofs.insert sp.Id { probe := none, t := tNow, spoof := sp }⟩) := by
  simp [Register, h]

theorem Register_stale (s : spoofMap) (sp : Spoof) (tSince tNow : Int) (spf : spoof)
    (h : s.spoofs.lookup sp.Id = some spf) (hage : tSince - spf.t > Second * 60) :
    Register s sp tSince tNow =
      (none, ⟨s.spoofs.insert sp.Id { probe := none, t := tNow, spoof := sp }⟩) := by
  simp [Register, h, (Since_gt_iff tSince spf.t).2 hage]

theorem Register_fresh (s : spoofMap) (sp : Spoof) (tSince tNow : Int) (spf : spoof)
    (h : s.spoofs.lookup sp.Id = some spf) (hage : tSince - spf.t ≤ Second * 60) :
    Register s sp tSince tNow = (some ErrorIDInUse, s) := by
  have hn : ¬ Since tSince spf.t > Second * 60 := by
    rw [Since_gt_iff]; omega
  simp [Register, h, hn]

/-- C1 (as amended): `Register` returns `ErrorIDInUse` exactly when a Registration
for `sp.Id` exists whose age at the `time.Since` reading is at most sixty
seconds, the age of exactly sixty seconds included; it succeeds exactly when
there is no Registration or the age is more than sixty seconds. -/
theorem C1_Register_error_iff (s : spoofMap) (sp : Spoof) (tSince tNow : Int) :
    ((Register s sp tSince tNow).1 = some ErrorIDInUse ↔
        ∃ spf, s.spoofs.lookup sp.Id = some spf ∧ tSince - spf.t ≤ 60 * Second) ∧
    ((Register s sp tSince tNow).1 = none ↔
        (s.spoofs.lookup sp.Id = none ∨
          ∃ spf, s.spoofs.lookup sp.Id = some spf ∧ tSince - spf.t > 60 * Second)) := by
  cases h : s.spoofs.lookup sp.Id with
  | none => simp [Register_absent s sp tSince tNow h]
  | some spf =>
    by_cases hage : tSince - spf.t ≤ Second * 60
    · have h60 : tSince - spf.t ≤ 60 * Second := by omega
      have h61 : ¬ 60 * Second < tSince - spf.t := by omega
      simp [Register_fresh s sp tSince tNow spf h hage]
      omega
    · have h60 : ¬ tSince - spf.t ≤ 60 * Second := by omega
      have h61 : 60 * Second < tSince - spf.t := by omega
      have hgt : tSince - spf.t > Second * 60 := by omega
      simp [Register_stale s sp tSince tNow spf h hgt]
      omega

/-- C1 (as stated) fails: a Registration for id 2 created at time 0 has age
exactly sixty seconds at time `60 * Second`, which is not less than sixty
seconds, and `Register` still returns `ErrorIDInUse`. -/
theorem C1_counterexample :
    regA.spoofs.lookup spB.Id = some { probe := none, t := 0, spoof := spA } ∧
    (Register regA spB (60 * Second) (60 * Second)).1 = some ErrorIDInUse ∧
    ¬ ((Register regA spB (60 * Second) (60 * Second)).1 = some ErrorIDInUse ↔
        ∃ spf, regA.spoofs.lookup spB.Id = some spf ∧ 60 * Second - spf.t < 60 * Second) := by
  have hl : regA.spoofs.lookup spB.Id = some { probe := none, t := 0, spoof := spA } := by decide
  have he : (Register regA spB (60 * Second) (60 * Second)).1 = some ErrorIDInUse := by decide
  refine ⟨hl, he, ?_⟩
  intro hiff
  obtain ⟨spf, hspf, hlt⟩ := hiff.1 he
  rw [hl] at hspf
  cases hspf
  simp at hlt

/-- C2: whenever `Register` returns `ErrorIDInUse`, the registry after the call
is the registry before it, so every id maps to what it mapped to before. -/
theorem C2_Register_error_unchanged (s : spoofMap) (sp : Spoof) (tSince tNow : Int)
    (h : (Register s sp tSince tNow).1 = some ErrorIDInUse) :
    (Register s sp tSince tNow).2 = s ∧
    ∀ k, (Register s sp tSince tNow).2.spoofs.lookup k = s.spoofs.lookup k := by
  have hs : (Register s sp tSince tNow).2 = s := by
    cases hl : s.spoofs.lookup sp.Id with
    | none => rw [Register_absent s sp tSince tNow hl] at h; simp at h
    | some spf =>
      by_cases hage : tSince - spf.t ≤ Second * 60
      · rw [Register_fresh s sp tSince tNow spf hl hage]
      · rw [Register_stale s sp tSince tNow spf hl (by omega)] at h; simp at h
  exact ⟨hs, fun k => by rw [hs]⟩

theorem C2_witness :
    (Register regAp spB Second Second).1 = some ErrorIDInUse ∧
    ((Register regAp spB Second Second).2 = regAp ∧
      ∀ k, (Register regAp spB Second Second).2.spoofs.lookup k = regAp.spoofs.lookup k) :=
  ⟨by decide, C2_Register_error_unchanged regAp spB Second Second (by decide)⟩

/-- C3: with no Registration for `sp.Id`, `Register` succeeds, `sp.Id` then maps
to a Registration created at the `time.Now()` reading, holding `sp` and no
response, and every other id maps to what it mapped to before. -/
theorem C3_Register_new (s : spoofMap) (sp : Spoof) (tSince tNow : Int)
    (h : s.spoofs.lookup sp.Id = none) :
    (Register s sp tSince tNow).1 = none ∧
    (Register s sp tSince tNow).2.spoofs.lookup sp.Id =
      some { probe := none, t := tNow, spoof := sp } ∧
    ∀ k, k ≠ sp.Id → (Register s sp tSince tNow).2.spoofs.lookup k = s.spoofs.lookup k := by
  rw [Register_absent s sp tSince tNow h]
  refine ⟨rfl, Finmap.lookup_insert _, ?_⟩
  intro k hk
  exact Finmap.lookup_insert_of_ne _ hk

theorem C3_witness :
    regAp.spoofs.lookup (Spoof.mk 5 1 2 3).Id = none ∧
    ((Register regAp ⟨5, 1, 2, 3⟩ 7 8).1 = none ∧
      (Register regAp ⟨5, 1, 2, 3⟩ 7 8).2.spoofs.lookup (Spoof.mk 5 1 2 3).Id =
        some { probe := none, t := 8, spoof := ⟨5, 1, 2, 3⟩ } ∧
      ∀ k, k ≠ (Spoof.mk 5 1 2 3).Id →
        (Register regAp ⟨5, 1, 2, 3⟩ 7 8).2.spoofs.lookup k = regAp.spoofs.lookup k) :=
  ⟨by decide, C3_Register_new regAp ⟨5, 1, 2, 3⟩ 7 8 (by decide)⟩

/-- C4: when a Registration for `sp.Id` exists, with or without a response, and
its age at the `time.Since` reading is more than sixty seconds, `Register`
succeeds and replaces it: `sp.Id` then maps to a Registration created at the
`time.Now()` reading, holding `sp` and no response; other ids are untouched. -/
theorem C4_Register_reuse (s : spoofMap) (sp : Spoof) (tSince tNow : Int) (spf : spoof)
    (h : s.spoofs.lookup sp.Id = some spf) (hage : tSince - spf.t > 60 * Second) :
    (Register s sp tSince tNow).1 = none ∧
    (Register s sp tSince tNow).2.spoofs.lookup sp.Id =
      some { probe := none, t := tNow, spoof := sp } ∧
    ∀ k, k ≠ sp.Id → (Register s sp tSince tNow).2.spoofs.lookup k = s.spoofs.lookup k := by
  have hgt : tSince - spf.t > Second * 60 := by omega
  rw [Register_stale s sp tSince tNow spf h hgt]
  refine ⟨rfl, Finmap.lookup_insert _, ?_⟩
  intro k hk
  exact Finmap.lookup_insert_of_ne _ hk

theorem C4_witness :
    regAp.spoofs.lookup spB.Id = some { probe := some prA, t := 0, spoof := spA } ∧
    (61 * Second - 0 > 60 * Second) ∧
    ((Register regAp spB (61 * Second) (61 * Second)).1 = none ∧
      (Register regAp spB (61 * Second) (61 * Second)).2.spoofs.lookup spB.Id =
        some { probe := none, t := 61 * Second, spoof := spB } ∧
      ∀ k, k ≠ spB.Id →
        (Register regAp spB (61 * Second) (61 * Second)).2.spoofs.lookup k =
          regAp.spoofs.lookup k) :=
  ⟨by decide, by decide,
    C4_Register_reuse regAp spB (61 * Second) (61 * Second)
      { probe := some prA, t := 0, spoof := spA } (by decide) (by decide)⟩

/-! ## Receive -/

theorem Receive_absent (s : spoofMap) (p : Probe) (h : s.spoofs.lookup p.ProbeId = none) :
    Receive s p = (some ErrorSpoofNotFound, s) := by
  simp [Receive, h]

theorem Receive_present (s : spoofMap) (p : Probe) (spf : spoof)
    (h : s.spoofs.lookup p.ProbeId = some spf) :
    Receive s p = (none, ⟨s.spoofs.insert p.ProbeId { spf with probe := some p }⟩) := by
  simp [Receive, h]

/-- C6: when a Registration for `p.ProbeId` exists, `Receive` succeeds; that
Registration then holds a response equal to `p` and keeps its creation time and
its request, and every other id maps to what it mapped to before. -/
theorem C6_Receive_attach (s : spoofMap) (p : Probe) (spf : spoof)
    (h : s.spoofs.lookup p.ProbeId = some spf) :
    (Receive s p).1 = none ∧
    (Receive s p).2.spoofs.lookup p.ProbeId =
      some { probe := some p, t := spf.t, spoof := spf.spoof } ∧
    ∀ k, k ≠ p.ProbeId → (Receive s p).2.spoofs.lookup k = s.spoofs.lookup k := by
  rw [Receive_present s p spf h]
  refine ⟨rfl, Finmap.lookup_insert _, ?_⟩
  intro k hk
  exact Finmap.lookup_insert_of_ne _ hk

theorem C6_witness :
    regA.spoofs.lookup prA.ProbeId = some { probe := none, t := 0, spoof := spA } ∧
    ((Receive regA prA).1 = none ∧
      (Receive regA prA).2.spoofs.lookup prA.ProbeId =
        some { probe := some prA, t := 0, spoof := spA } ∧
      ∀ k, k ≠ prA.ProbeId → (Receive regA prA).2.spoofs.lookup k = regA.spoofs.lookup k) :=
  ⟨by decide, C6_Receive_attach regA prA { probe := none, t := 0, spoof := spA } (by decide)⟩

/-- C7: for two probes with the same registered `ProbeId`, `Receive(p1)` followed
by `Receive(p2)` succeeds both times and leaves the registry that `Receive(p2)`
alone leaves. -/
theorem C7_Receive_last_wins (s : spoofMap) (p1 p2 : Probe) (spf : spoof)
    (hid : p1.ProbeId = p2.ProbeId) (h : s.spoofs.lookup p1.ProbeId = some spf) :
    (Receive s p1).1 = none ∧
    (Receive (Receive s p1).2 p2).1 = none ∧
    (Receive (Receive s p1).2 p2).2 = (Receive s p2).2 := by
  have h2 : s.spoofs.lookup p2.ProbeId = some spf := hid ▸ h
  have h3 : (Receive s p1).2.spoofs.lookup p2.ProbeId =
      some { spf with probe := some p1 } := by
    rw [Receive_present s p1 spf h, ← hid]
    exact Finmap.lookup_insert _
  refine ⟨by rw [Receive_present s p1 spf h], ?_, ?_⟩
  · rw [Receive_present _ p2 _ h3]
  · rw [Receive_present _ p2 _ h3, Receive_present s p2 spf h2, Receive_present s p1 spf h, hid]
    simp [Finmap.insert_insert]

theorem C7_witness :
    prA.ProbeId = (Probe.mk 2 11 [9]).ProbeId ∧
    regA.spoofs.lookup prA.ProbeId = some { probe := none, t := 0, spoof := spA } ∧
    ((Receive regA prA).1 = none ∧
      (Receive (Receive regA prA).2 ⟨2, 11, [9]⟩).1 = none ∧
      (Receive (Receive regA prA).2 ⟨2, 11, [9]⟩).2 = (Receive regA ⟨2, 11, [9]⟩).2) :=
  ⟨by decide, by decide,
    C7_Receive_last_wins regA prA ⟨2, 11, [9]⟩ { probe := none, t := 0, spoof := spA }
      (by decide) (by decide)⟩

/-! ## The first loop of the dispatcher -/

theorem scanStep_lookup (m : GoMap spoof) (d : GoMap (List Probe)) (id k : Nat) :
    (scanStep (m, d) id).1.lookup k =
      if k = id ∧ (response m id).isSome then none else m.lookup k := by
  unfold scanStep response
  cases h : m.lookup id with
  | none => simp
  | some spf =>
    cases hp : spf.probe with
    | none => simp [hp]
    | some p =>
      by_cases hk : k = id
      · subst hk
        simp [hp, Finmap.lookup_erase]
      · simp [hp, hk, Finmap.lookup_erase_ne hk, Finmap.lookup_insert_of_ne _ hk]

theorem scanStep_response (m : GoMap spoof) (d : GoMap (List Probe)) (id k : Nat) :
    response (scanStep (m, d) id).1 k = if k = id then none else response m k := by
  unfold response
  rw [scanStep_lookup]
  by_cases hk : k = id
  · subst hk
    cases h : m.lookup k with
    | none => simp [response, h]
    | some spf =>
      cases hp : spf.probe <;> simp [response, h, hp]
  · simp [hk]

theorem scan_fold_lookup (order : List Nat) (m : GoMap spoof) (d : GoMap (List Probe))
    (k : Nat) :
    (order.foldl scanStep (m, d)).1.lookup k =
      if k ∈ order ∧ (response m k).isSome then none else m.lookup k := by
  induction order generalizing m d with
  | nil => simp
  | cons id rest ih =>
    rw [List.foldl_cons]
    have e : scanStep (m, d) id = ((scanStep (m, d) id).1, (scanStep (m, d) id).2) := rfl
    rw [e, ih, scanStep_response, scanStep_lookup]
    by_cases hk : k = id
    · subst hk
      by_cases hr : (response m k).isSome <;> simp [hr]
    · simp [hk]

theorem scanStep_dests (m : GoMap spoof) (d : GoMap (List Probe)) (id ip : Nat) :
    (scanStep (m, d) id).2.lookup ip =
      match response m id with
      | some p => if ip = p.SenderIp then some ((d.lookup ip).getD [] ++ [p]) else d.lookup ip
      | none => d.lookup ip := by
  unfold scanStep response
  cases h : m.lookup id with
  | none => simp
  | some spf =>
    cases hp : spf.probe with
    | none => simp [hp]
    | some p =>
      by_cases hk : ip = p.SenderIp
      · subst hk
        simp [hp, Finmap.lookup_insert]
      · simp [hp, hk, Finmap.lookup_insert_of_ne _ hk]

theorem batchFor_cons (m : GoMap spoof) (id : Nat) (rest : List Nat) (ip : Nat) :
    batchFor m (id :: rest) ip =
      match response m id with
      | some p => if p.SenderIp = ip then p :: batchFor m rest ip else batchFor m rest ip
      | none => batchFor m rest ip := by
  unfold batchFor
  cases h : response m id with
  | none => simp [List.filterMap_cons, h]
  | some p =>
    by_cases hk : p.SenderIp = ip
    · simp [List.filterMap_cons, h, hk]
    · simp [List.filterMap_cons, h, hk]

theorem batchFor_scanStep (m : GoMap spoof) (d : GoMap (List Probe)) (id : Nat)
    (rest : List Nat) (hid : id ∉ rest) (ip : Nat) :
    batchFor (scanStep (m, d) id).1 rest ip = batchFor m rest ip := by
  unfold batchFor
  congr 1
  apply List.filterMap_congr
  intro k hk
  rw [scanStep_response]
  have : k ≠ id := fun e => hid (e ▸ hk)
  simp [this]

theorem scan_fold_dests (order : List Nat) (hnd : order.Nodup) (m : GoMap spoof)
    (d : GoMap (List Probe)) (ip : Nat) :
    (order.foldl scanStep (m, d)).2.lookup ip =
      if batchFor m order ip = [] then d.lookup ip
      else some ((d.lookup ip).getD [] ++ batchFor m order ip) := by
  induction order generalizing m d with
  | nil => simp [batchFor]
  | cons id rest ih =>
    rw [List.nodup_cons] at hnd
    rw [List.foldl_cons]
    have e : scanStep (m, d) id = ((scanStep (m, d) id).1, (scanStep (m, d) id).2) := rfl
    rw [e, ih hnd.2, batchFor_scanStep m d id rest hnd.1, scanStep_dests, batchFor_cons]
    cases h : response m id with
    | none => simp
    | some p =>
      by_cases hk : ip = p.SenderIp
      · subst hk
        by_cases hb : batchFor m rest p.SenderIp = [] <;> simp [hb]
      · have hk2 : ¬ p.SenderIp = ip := fun e => hk e.symm
        simp [hk, hk2]

/-- After the first loop `dests` maps `ip` to the responses collected for `ip`,
and holds no entry for an `ip` without any. -/
theorem scan_dests (order : List Nat) (hnd : order.Nodup) (m : GoMap spoof) (ip : Nat) :
    (scan order m).2.lookup ip =
      if batchFor m order ip = [] then none else some (batchFor m order ip) := by
  unfold scan
  rw [scan_fold_dests order hnd]
  simp

/-- After the first loop the Registrations that held a response are gone and
the others are as they were. -/
theorem scan_spoofs (order : List Nat) (m : GoMap spoof) (k : Nat) :
    (scan order m).1.lookup k =
      if k ∈ order ∧ (response m k).isSome then none else m.lookup k :=
  scan_fold_lookup order m ∅ k

/-! ## The second loop of the dispatcher -/

theorem sendStep_calls {σ : Type} (T : Sender σ) (st : SendState σ) (ip : Nat) :
    (sendStep T st ip).calls =
      st.calls ++ ((st.dests.lookup ip).map (fun probes => (probes, ip))).toList := by
  unfold sendStep
  cases h : st.dests.lookup ip with
  | none => simp
  | some probes =>
    dsimp only
    rcases hs : T.Send st.transport probes ip with ⟨err, tr⟩
    cases err <;> simp

theorem sendStep_dests_ne {σ : Type} (T : Sender σ) (st : SendState σ) (ip k : Nat)
    (hk : k ≠ ip) : (sendStep T st ip).dests.lookup k = st.dests.lookup k := by
  unfold sendStep
  cases h : st.dests.lookup ip with
  | none => simp
  | some probes =>
    dsimp only
    rcases hs : T.Send st.transport probes ip with ⟨err, tr⟩
    cases err <;> simp [Finmap.lookup_erase_ne hk]

/-- The calls of `Send` the second loop makes, when every key is visited once:
one for each visited key that has an entry, with that entry as the batch. -/
theorem send_fold_calls {σ : Type} (T : Sender σ) (destOrder : List Nat)
    (hnd : destOrder.Nodup) (st : SendState σ) :
    (destOrder.foldl (sendStep T) st).calls =
      st.calls ++ destOrder.filterMap
        (fun ip => (st.dests.lookup ip).map (fun probes => (probes, ip))) := by
  induction destOrder generalizing st with
  | nil => simp
  | cons ip rest ih =>
    rw [List.nodup_cons] at hnd
    rw [List.foldl_cons, ih hnd.2, sendStep_calls]
    have hc : rest.filterMap
          (fun k => ((sendStep T st ip).dests.lookup k).map (fun probes => (probes, k))) =
        rest.filterMap (fun k => (st.dests.lookup k).map (fun probes => (probes, k))) := by
      apply List.filterMap_congr
      intro k hk
      have : k ≠ ip := fun e => hnd.1 (e ▸ hk)
      rw [sendStep_dests_ne T st ip k this]
    rw [hc]
    cases h : st.dests.lookup ip <;> simp [List.filterMap_cons, h]

theorem tick_state {σ : Type} (T : Sender σ) (tr : σ) (s : spoofMap)
    (order destOrder : List Nat) :
    (sendSpoofsTick T tr s order destOrder).state = ⟨(scan order s.spoofs).1⟩ := rfl

theorem tick_calls {σ : Type} (T : Sender σ) (tr : σ) (s : spoofMap)
    (order destOrder : List Nat) (hnd : destOrder.Nodup) :
    (sendSpoofsTick T tr s order destOrder).sends.calls =
      destOrder.filterMap
        (fun ip => ((scan order s.spoofs).2.lookup ip).map (fun probes => (probes, ip))) := by
  unfold sendSpoofsTick
  simp only
  rw [send_fold_calls T destOrder hnd]
  simp

/-! ## Iteration orders and batches -/

theorem IterOrder.mem_iff {V : Type} {order : List Nat} {m : GoMap V}
    (h : IterOrder order m) (k : Nat) : k ∈ order ↔ k ∈ m := by
  rw [← Finmap.mem_keys, ← h.2, List.mem_toFinset]

theorem IterOrder.eq_singleton {V : Type} {order : List Nat} {m : GoMap V}
    (h : IterOrder order m) (a : Nat) (hm : ∀ k, k ∈ m ↔ k = a) : order = [a] := by
  have hp : order.Perm [a] := by
    rw [List.perm_ext_iff_of_nodup h.1 (List.nodup_singleton a)]
    intro k
    rw [h.mem_iff, hm, List.mem_singleton]
  exact List.perm_singleton.1 hp

theorem response_some_mem {m : GoMap spoof} {k : Nat} {p : Probe}
    (h : response m k = some p) : k ∈ m := by
  rw [← Finmap.lookup_isSome]
  unfold response at h
  cases hl : m.lookup k with
  | none => simp [hl] at h
  | some spf => simp

theorem boundFor_iff (m : GoMap spoof) (ip k : Nat) :
    boundFor m ip k = true ↔ ∃ p, response m k = some p ∧ p.SenderIp = ip := by
  unfold boundFor
  cases h : response m k <;> simp

/-- The batch for `ip` lines up, one to one, with the visited keys whose
Registration holds a response bound for `ip`. -/
theorem batchFor_forall2 (m : GoMap spoof) (order : List Nat) (ip : Nat) :
    List.Forall₂ (fun k p => response m k = some p)
      (order.filter (boundFor m ip)) (batchFor m order ip) := by
  induction order with
  | nil => simp [batchFor]
  | cons id rest ih =>
    rw [batchFor_cons]
    cases h : response m id with
    | none =>
      have hb : boundFor m ip id = false := by simp [boundFor, h]
      simpa [List.filter_cons, hb] using ih
    | some p =>
      by_cases hk : p.SenderIp = ip
      · have hb : boundFor m ip id = true := by simp [boundFor, h, hk]
        simp only [List.filter_cons, hb, hk, if_true]
        exact List.Forall₂.cons h ih
      · have hb : boundFor m ip id = false := by simp [boundFor, h, hk]
        simpa [List.filter_cons, hb, hk] using ih

theorem batchFor_eq_nil_iff (m : GoMap spoof) (order : List Nat) (ip : Nat) :
    batchFor m order ip = [] ↔ ¬ ∃ k, k ∈ order ∧ boundFor m ip k = true := by
  have h := batchFor_forall2 m order ip
  constructor
  · intro hb
    rw [hb, List.forall₂_nil_right_iff, List.filter_eq_nil_iff] at h
    rintro ⟨k, hk, hbd⟩
    exact h k hk hbd
  · intro hn
    have hf : order.filter (boundFor m ip) = [] := by
      rw [List.filter_eq_nil_iff]
      intro k hk hbd
      exact hn ⟨k, hk, hbd⟩
    rw [hf, List.forall₂_nil_left_iff] at h
    exact h

/-- With a full iteration order, `dests` has an entry for `ip` exactly when
some Registration holds a response bound for `ip`. -/
theorem scan_dests_mem (order : List Nat) (m : GoMap spoof) (ho : IterOrder order m)
    (ip : Nat) :
    ip ∈ (scan order m).2 ↔ ∃ k p, response m k = some p ∧ p.SenderIp = ip := by
  rw [← Finmap.lookup_isSome, scan_dests order ho.1]
  by_cases hb : batchFor m order ip = []
  · simp only [hb, if_true, Option.isSome_none, Bool.false_eq_true, false_iff]
    rw [batchFor_eq_nil_iff] at hb
    rintro ⟨k, p, hr, hp⟩
    exact hb ⟨k, (ho.mem_iff k).2 (response_some_mem hr), (boundFor_iff m ip k).2 ⟨p, hr, hp⟩⟩
  · simp only [hb, if_false, Option.isSome_some, true_iff]
    rw [batchFor_eq_nil_iff, not_not] at hb
    obtain ⟨k, _, hbd⟩ := hb
    obtain ⟨p, hr, hp⟩ := (boundFor_iff m ip k).1 hbd
    exact ⟨k, p, hr, hp⟩

/-! ## The dispatcher tick as a whole -/

theorem calls_dests (D : GoMap (List Probe)) (l : List Nat) :
    (l.filterMap (fun ip => (D.lookup ip).map (fun probes => (probes, ip)))).map Prod.snd =
      l.filter (fun ip => (D.lookup ip).isSome) := by
  induction l with
  | nil => simp
  | cons ip rest ih =>
    cases h : D.lookup ip <;> simp [List.filterMap_cons, List.filter_cons, h, ih]

theorem calls_mem (D : GoMap (List Probe)) (l : List Nat) (batch : List Probe) (d : Nat) :
    (batch, d) ∈ l.filterMap (fun ip => (D.lookup ip).map (fun probes => (probes, ip))) ↔
      d ∈ l ∧ D.lookup d = some batch := by
  rw [List.mem_filterMap]
  constructor
  · rintro ⟨ip, hip, hm⟩
    cases hl : D.lookup ip with
    | none => simp [hl] at hm
    | some probes =>
      simp only [hl, Option.map_some', Option.some.injEq, Prod.mk.injEq] at hm
      obtain ⟨rfl, rfl⟩ := hm
      exact ⟨hip, hl⟩
  · rintro ⟨hd, hl⟩
    exact ⟨d, hd, by simp [hl]⟩

/-- A tick removes the Registrations that hold a response and no others. -/
theorem tick_lookup {σ : Type} (T : Sender σ) (tr : σ) (s : spoofMap)
    (order destOrder : List Nat) (ho : IterOrder order s.spoofs) (k : Nat) :
    (sendSpoofsTick T tr s order destOrder).state.spoofs.lookup k =
      if (response s.spoofs k).isSome then none else s.spoofs.lookup k := by
  rw [tick_state, scan_spoofs]
  by_cases hr : (response s.spoofs k).isSome
  · obtain ⟨p, hp⟩ := Option.isSome_iff_exists.1 hr
    have hk : k ∈ order := (ho.mem_iff k).2 (response_some_mem hp)
    simp [hr, hk]
  · simp [hr]

/-- The destinations of the calls of `Send`, in the order of the calls. -/
theorem tick_calls_dests {σ : Type} (T : Sender σ) (tr : σ) (s : spoofMap)
    (order destOrder : List Nat) (hnd : destOrder.Nodup) :
    (sendSpoofsTick T tr s order destOrder).sends.calls.map Prod.snd =
      destOrder.filter (fun ip => ((scan order s.spoofs).2.lookup ip).isSome) := by
  rw [tick_calls T tr s order destOrder hnd, calls_dests]

/-- Every batch handed to `Send` is the batch the scan collected for its
destination. -/
theorem tick_calls_batch {σ : Type} (T : Sender σ) (tr : σ) (s : spoofMap)
    (order destOrder : List Nat) (hno : order.Nodup) (hnd : destOrder.Nodup)
    (batch : List Probe) (d : Nat)
    (h : (batch, d) ∈ (sendSpoofsTick T tr s order destOrder).sends.calls) :
    batch = batchFor s.spoofs order d ∧ batch ≠ [] := by
  rw [tick_calls T tr s order destOrder hnd, calls_mem, scan_dests order hno] at h
  obtain ⟨_, hl⟩ := h
  by_cases hb : batchFor s.spoofs order d = []
  · simp [hb] at hl
  · simp only [hb, if_false, Option.some.injEq] at hl
    exact ⟨hl.symm, hl ▸ hb⟩

/-- Scenario 1: `Register(id=1)`, `Receive(probe for id 1, bound for 10)`, one
tick: one call of `Send`, with that probe alone and destination 10; id 1 gone. -/
theorem scenario_register_receive_tick {σ : Type} (T : Sender σ) (tr : σ) (sp : Spoof)
    (p : Probe) (tSince tNow : Int) (order destOrder : List Nat)
    (hsp : sp.Id = 1) (hp : p.ProbeId = 1) (hip : p.SenderIp = 10)
    (ho : IterOrder order (Receive (Register New sp tSince tNow).2 p).2.spoofs)
    (hd : IterOrder destOrder
      (scan order (Receive (Register New sp tSince tNow).2 p).2.spoofs).2) :
    (Register New sp tSince tNow).1 = none ∧
    (Receive (Register New sp tSince tNow).2 p).1 = none ∧
    (sendSpoofsTick T tr (Receive (Register New sp tSince tNow).2 p).2
      order destOrder).sends.calls = [([p], 10)] ∧
    (sendSpoofsTick T tr (Receive (Register New sp tSince tNow).2 p).2
      order destOrder).state.spoofs.lookup 1 = none := by
  have h1 : Register New sp tSince tNow =
      (none, ⟨Finmap.insert 1 ({ probe := none, t := tNow, spoof := sp } : spoof)
          (∅ : GoMap spoof)⟩) := by
    rw [Register_absent New sp tSince tNow (by simp [New]), hsp]
    rfl
  have h2 : Receive (Register New sp tSince tNow).2 p =
      (none, ⟨Finmap.insert 1 ({ probe := some p, t := tNow, spoof := sp } : spoof)
        (Finmap.insert 1 ({ probe := none, t := tNow, spoof := sp } : spoof)
          (∅ : GoMap spoof))⟩) := by
    rw [h1, Receive_present _ p { probe := none, t := tNow, spoof := sp }
      (by rw [hp]; exact Finmap.lookup_insert _), hp]
  refine ⟨by rw [h1], by rw [h2], ?_⟩
  rw [h2] at ho hd ⊢
  simp only at ho hd ⊢
  generalize hm : Finmap.insert 1 ({ probe := some p, t := tNow, spoof := sp } : spoof)
        (Finmap.insert 1 ({ probe := none, t := tNow, spoof := sp } : spoof)
          (∅ : GoMap spoof)) = m at ho hd ⊢
  have hr1 : response m 1 = some p := by
    rw [← hm]; simp [response, Finmap.lookup_insert]
  have hmem : ∀ k, k ∈ m ↔ k = 1 := by
    intro k
    rw [← hm]
    simp only [Finmap.mem_insert, or_self_left]
    constructor
    · rintro (h | h)
      · exact h
      · exact absurd h (Finmap.not_mem_empty)
    · exact fun h => Or.inl h
  have hrk : ∀ k q, response m k = some q → k = 1 ∧ q = p := by
    intro k q hq
    have hk : k = 1 := (hmem k).1 (response_some_mem hq)
    subst hk
    rw [hr1] at hq
    exact ⟨rfl, (Option.some.inj hq).symm⟩
  have hord : order = [1] := ho.eq_singleton 1 hmem
  subst hord
  have hdm : ∀ ip, ip ∈ (scan [1] m).2 ↔ ip = 10 := by
    intro ip
    rw [scan_dests_mem [1] m ho]
    constructor
    · rintro ⟨k, q, hq, hqi⟩
      obtain ⟨_, rfl⟩ := hrk k q hq
      rw [← hqi, hip]
    · rintro rfl
      exact ⟨1, p, hr1, hip⟩
  have hdo : destOrder = [10] := hd.eq_singleton 10 hdm
  subst hdo
  have hb : batchFor m [1] 10 = [p] := by
    rw [batchFor_cons, hr1]
    simp [hip, batchFor]
  refine ⟨?_, ?_⟩
  · rw [tick_calls T tr ⟨m⟩ [1] [10] hd.1]
    simp [scan_dests [1] ho.1, hb]
  · rw [tick_lookup T tr ⟨m⟩ [1] [10] ho]
    simp [hr1]

/-- C8: in one dispatcher tick, whatever the iteration orders and the Sender,
every Registration holding a response is removed and the others stay; `Send` is
called once for each destination found among those responses and for no other;
the batch of a call lines up one to one with the Registrations whose response
was bound for that destination.  In the scenario `Register(id=1)`,
`Receive(probe for id 1, bound for 10)`, tick, there is one call, with that
probe alone and destination 10, and id 1 is gone. -/
theorem C8_dispatch_tick {σ : Type} (T : Sender σ) (tr : σ) (s : spoofMap)
    (order destOrder : List Nat) (ho : IterOrder order s.spoofs)
    (hd : IterOrder destOrder (scan order s.spoofs).2) :
    (∀ k, (sendSpoofsTick T tr s order destOrder).state.spoofs.lookup k =
        if (response s.spoofs k).isSome then none else s.spoofs.lookup k) ∧
    ((sendSpoofsTick T tr s order destOrder).sends.calls.map Prod.snd).Nodup ∧
    (∀ d, d ∈ (sendSpoofsTick T tr s order destOrder).sends.calls.map Prod.snd ↔
        ∃ k p, response s.spoofs k = some p ∧ p.SenderIp = d) ∧
    (∀ batch d, (batch, d) ∈ (sendSpoofsTick T tr s order destOrder).sends.calls →
        ∃ keys : List Nat, keys.Nodup ∧
          (∀ k, k ∈ keys ↔ ∃ p, response s.spoofs k = some p ∧ p.SenderIp = d) ∧
          List.Forall₂ (fun k p => response s.spoofs k = some p) keys batch) ∧
    (∀ (sp : Spoof) (p : Probe) (tSince tNow : Int) (order1 destOrder1 : List Nat),
        sp.Id = 1 → p.ProbeId = 1 → p.SenderIp = 10 →
        IterOrder order1 (Receive (Register New sp tSince tNow).2 p).2.spoofs →
        IterOrder destOrder1
          (scan order1 (Receive (Register New sp tSince tNow).2 p).2.spoofs).2 →
        (Register New sp tSince tNow).1 = none ∧
        (Receive (Register New sp tSince tNow).2 p).1 = none ∧
        (sendSpoofsTick T tr (Receive (Register New sp tSince tNow).2 p).2
          order1 destOrder1).sends.calls = [([p], 10)] ∧
        (sendSpoofsTick T tr (Receive (Register New sp tSince tNow).2 p).2
          order1 destOrder1).state.spoofs.lookup 1 = none) := by
  refine ⟨fun k => tick_lookup T tr s order destOrder ho k, ?_, ?_, ?_, ?_⟩
  · rw [tick_calls_dests T tr s order destOrder hd.1]
    exact hd.1.filter _
  · intro d
    rw [tick_calls_dests T tr s order destOrder hd.1, List.mem_filter, hd.mem_iff,
      Finmap.lookup_isSome, and_self, scan_dests_mem order s.spoofs ho]
  · intro batch d hmem
    obtain ⟨hb, _⟩ := tick_calls_batch T tr s order destOrder ho.1 hd.1 batch d hmem
    refine ⟨order.filter (boundFor s.spoofs d), ho.1.filter _, ?_, ?_⟩
    · intro k
      rw [List.mem_filter, boundFor_iff, ho.mem_iff]
      constructor
      · exact fun h => h.2
      · rintro ⟨p, hp, hpd⟩
        exact ⟨response_some_mem hp, p, hp, hpd⟩
    · rw [hb]
      exact batchFor_forall2 s.spoofs order d
  · intro sp p tSince tNow order1 destOrder1 hsp hp hip ho1 hd1
    exact scenario_register_receive_tick T tr sp p tSince tNow order1 destOrder1
      hsp hp hip ho1 hd1

theorem C8_witness :
    IterOrder [4, 2, 1, 3] regMix.spoofs ∧
    IterOrder [11, 10] (scan [4, 2, 1, 3] regMix.spoofs).2 ∧
    (sendSpoofsTick failTen 0 regMix [4, 2, 1, 3] [11, 10]).sends.calls =
      [([⟨3, 11, [3]⟩], 11), ([⟨2, 10, [2]⟩, ⟨1, 10, [1]⟩], 10)] ∧
    (∀ k, (sendSpoofsTick failTen 0 regMix [4, 2, 1, 3] [11, 10]).state.spoofs.lookup k =
        if (response regMix.spoofs k).isSome then none else regMix.spoofs.lookup k) ∧
    ((sendSpoofsTick failTen 0 regMix [4, 2, 1, 3] [11, 10]).sends.calls.map Prod.snd).Nodup ∧
    (∀ d, d ∈ (sendSpoofsTick failTen 0 regMix [4, 2, 1, 3] [11, 10]).sends.calls.map Prod.snd ↔
        ∃ k p, response regMix.spoofs k = some p ∧ p.SenderIp = d) :=
  ⟨by decide, by decide, by decide,
    (C8_dispatch_tick failTen 0 regMix [4, 2, 1, 3] [11, 10] (by decide) (by decide)).1,
    (C8_dispatch_tick failTen 0 regMix [4, 2, 1, 3] [11, 10] (by decide) (by decide)).2.1,
    (C8_dispatch_tick failTen 0 regMix [4, 2, 1, 3] [11, 10] (by decide) (by decide)).2.2.1⟩

/-- C9: in a dispatcher tick every element of every batch handed to `Send` is
the response attached to a Registration of its own, so nothing comes from a
Registration without a response; and every Registration without a response is
still there after the tick, with the same creation time and request and still
without a response. -/
theorem C9_dispatch_keeps_unanswered {σ : Type} (T : Sender σ) (tr : σ) (s : spoofMap)
    (order destOrder : List Nat) (ho : IterOrder order s.spoofs)
    (hd : IterOrder destOrder (scan order s.spoofs).2) :
    (∀ batch d, (batch, d) ∈ (sendSpoofsTick T tr s order destOrder).sends.calls →
        ∃ keys : List Nat, keys.Nodup ∧
          List.Forall₂
            (fun k p => ∃ spf, s.spoofs.lookup k = some spf ∧ spf.probe = some p)
            keys batch) ∧
    (∀ k spf, s.spoofs.lookup k = some spf → spf.probe = none →
        (sendSpoofsTick T tr s order destOrder).state.spoofs.lookup k = some spf) := by
  constructor
  · intro batch d hmem
    obtain ⟨hb, _⟩ := tick_calls_batch T tr s order destOrder ho.1 hd.1 batch d hmem
    refine ⟨order.filter (boundFor s.spoofs d), ho.1.filter _, ?_⟩
    rw [hb]
    refine (batchFor_forall2 s.spoofs order d).imp ?_
    intro k p hr
    unfold response at hr
    cases hl : s.spoofs.lookup k with
    | none => simp [hl] at hr
    | some spf => exact ⟨spf, rfl, by simpa [hl] using hr⟩
  · intro k spf hl hp
    rw [tick_lookup T tr s order destOrder ho]
    simp [response, hl, hp]

theorem C9_witness :
    IterOrder [3, 1, 4, 2] regMix.spoofs ∧
    IterOrder [10, 11] (scan [3, 1, 4, 2] regMix.spoofs).2 ∧
    regMix.spoofs.lookup 4 = some { probe := none, t := 3, spoof := ⟨4, 0, 0, 0⟩ } ∧
    (sendSpoofsTick failTen 0 regMix [3, 1, 4, 2] [10, 11]).state.spoofs.lookup 4 =
      some { probe := none, t := 3, spoof := ⟨4, 0, 0, 0⟩ } :=
  ⟨by decide, by decide, by decide,
    (C9_dispatch_keeps_unanswered failTen 0 regMix [3, 1, 4, 2] [10, 11]
      (by decide) (by decide)).2 4 _ (by decide) rfl⟩

/-- C10: a dispatcher tick leaves the same registry and makes the same set of
calls of `Send`, with the same batches and destinations, whatever the Sender
and whichever of its calls fail, and the same sequence of calls when the
destinations are visited in the same order; no destination is called twice, so
a failed call is not retried, and the Registrations whose responses were
handed over are gone from the registry whether or not the call failed. -/
theorem C10_send_errors_ignored {σ₁ σ₂ : Type} (T₁ : Sender σ₁) (T₂ : Sender σ₂)
    (tr₁ : σ₁) (tr₂ : σ₂) (s : spoofMap) (order destOrder₁ destOrder₂ : List Nat)
    (ho : IterOrder order s.spoofs)
    (hd₁ : IterOrder destOrder₁ (scan order s.spoofs).2)
    (hd₂ : IterOrder destOrder₂ (scan order s.spoofs).2) :
    (sendSpoofsTick T₁ tr₁ s order destOrder₁).state =
      (sendSpoofsTick T₂ tr₂ s order destOrder₂).state ∧
    (∀ c, c ∈ (sendSpoofsTick T₁ tr₁ s order destOrder₁).sends.calls ↔
      c ∈ (sendSpoofsTick T₂ tr₂ s order destOrder₂).sends.calls) ∧
    (destOrder₁ = destOrder₂ →
      (sendSpoofsTick T₁ tr₁ s order destOrder₁).sends.calls =
        (sendSpoofsTick T₂ tr₂ s order destOrder₂).sends.calls) ∧
    ((sendSpoofsTick T₁ tr₁ s order destOrder₁).sends.calls.map Prod.snd).Nodup ∧
    (∀ k, (response s.spoofs k).isSome →
      (sendSpoofsTick T₁ tr₁ s order destOrder₁).state.spoofs.lookup k = none) := by
  refine ⟨rfl, ?_, ?_, ?_, ?_⟩
  · rintro ⟨batch, d⟩
    rw [tick_calls T₁ tr₁ s order destOrder₁ hd₁.1, tick_calls T₂ tr₂ s order destOrder₂ hd₂.1,
      calls_mem, calls_mem, hd₁.mem_iff, hd₂.mem_iff]
  · rintro rfl
    rw [tick_calls T₁ tr₁ s order destOrder₁ hd₁.1, tick_calls T₂ tr₂ s order destOrder₁ hd₁.1]
  · rw [tick_calls_dests T₁ tr₁ s order destOrder₁ hd₁.1]
    exact hd₁.1.filter _
  · intro k hk
    rw [tick_lookup T₁ tr₁ s order destOrder₁ ho]
    simp [hk]

theorem C10_witness :
    IterOrder [4, 2, 1, 3] regMix.spoofs ∧
    IterOrder [11, 10] (scan [4, 2, 1, 3] regMix.spoofs).2 ∧
    IterOrder [10, 11] (scan [4, 2, 1, 3] regMix.spoofs).2 ∧
    (sendSpoofsTick failTen 0 regMix [4, 2, 1, 3] [11, 10]).sends.logged =
      [Error.SendError 1] ∧
    (sendSpoofsTick neverFails () regMix [4, 2, 1, 3] [10, 11]).sends.logged = [] ∧
    (sendSpoofsTick failTen 0 regMix [4, 2, 1, 3] [11, 10]).state =
      (sendSpoofsTick neverFails () regMix [4, 2, 1, 3] [10, 11]).state ∧
    (∀ c, c ∈ (sendSpoofsTick failTen 0 regMix [4, 2, 1, 3] [11, 10]).sends.calls ↔
      c ∈ (sendSpoofsTick neverFails () regMix [4, 2, 1, 3] [10, 11]).sends.calls) :=
  ⟨by decide, by decide, by decide, by decide, by decide,
    (C10_send_errors_ignored failTen neverFails 0 () regMix [4, 2, 1, 3] [11, 10] [10, 11]
      (by decide) (by decide) (by decide)).1,
    (C10_send_errors_ignored failTen neverFails 0 () regMix [4, 2, 1, 3] [11, 10] [10, 11]
      (by decide) (by decide) (by decide)).2.1⟩

/-! ## The janitor loop -/

/-- The janitor loop removes Registrations and does nothing else: a key maps to
nothing afterwards or to what it mapped to before. -/
theorem cleanLoop_lookup (clock : Nat → Int) (order : List Nat) (count : Nat)
    (m : GoMap spoof) (k : Nat) :
    (cleanLoop clock order count m).lookup k = none ∨
      (cleanLoop clock order count m).lookup k = m.lookup k := by
  induction order generalizing count m with
  | nil => exact Or.inr rfl
  | cons id rest ih =>
    unfold cleanLoop
    cases h : m.lookup id with
    | none => exact ih count m
    | some spf =>
      simp only
      have h1 : ∀ m1 : GoMap spoof,
          m1 = (if Since (clock count) spf.t > Second * 60 then
              Finmap.erase id (m.insert id { spf with probe := none }) else m) →
          m1.lookup k = none ∨ m1.lookup k = m.lookup k := by
        intro m1 hm1
        split_ifs at hm1
        · by_cases hk : k = id
          · left; rw [hm1, hk]; exact Finmap.lookup_erase _ _
          · right
            rw [hm1, Finmap.lookup_erase_ne hk, Finmap.lookup_insert_of_ne _ hk]
        · right; rw [hm1]
      split_ifs with hc hs hs
      · exact h1 _ (by simp [hs])
      · exact h1 _ (by simp [hs])
      · rcases ih (count + 1) (Finmap.erase id (m.insert id { spf with probe := none })) with
          hn | he
        · exact Or.inl hn
        · rw [he]; exact h1 _ (by simp [hs])
      · rcases ih (count + 1) m with hn | he
        · exact Or.inl hn
        · exact Or.inr he

/-! ## Keys of reachable registries -/

theorem mem_of_lookup_eq {V : Type} {m₁ m₂ : GoMap V} {k : Nat}
    (h : m₁.lookup k = none ∨ m₁.lookup k = m₂.lookup k) (hk : k ∈ m₁) : k ∈ m₂ := by
  rw [← Finmap.lookup_isSome] at hk ⊢
  rcases h with h | h
  · simp [h] at hk
  · rwa [← h]

theorem Register_mem (s : spoofMap) (sp : Spoof) (tSince tNow : Int) (k : Nat)
    (hk : k ∈ (Register s sp tSince tNow).2.spoofs) : k = sp.Id ∨ k ∈ s.spoofs := by
  unfold Register at hk
  split at hk
  · split_ifs at hk
    · exact Finmap.mem_insert.1 hk
    · exact Or.inr hk
  · exact Finmap.mem_insert.1 hk

theorem Receive_mem (s : spoofMap) (p : Probe) (k : Nat)
    (hk : k ∈ (Receive s p).2.spoofs) : k ∈ s.spoofs := by
  cases h : s.spoofs.lookup p.ProbeId with
  | none => rwa [Receive_absent s p h] at hk
  | some spf =>
    rw [Receive_present s p spf h] at hk
    rcases Finmap.mem_insert.1 hk with e | hm
    · rw [e]; exact Finmap.mem_of_lookup_eq_some h
    · exact hm

theorem tick_mem {σ : Type} (T : Sender σ) (tr : σ) (s : spoofMap)
    (order destOrder : List Nat) (k : Nat)
    (hk : k ∈ (sendSpoofsTick T tr s order destOrder).state.spoofs) : k ∈ s.spoofs := by
  rw [tick_state] at hk
  refine mem_of_lookup_eq ?_ hk
  rw [scan_spoofs]
  split_ifs
  · exact Or.inl rfl
  · exact Or.inr rfl

theorem cleanOldTick_mem (s : spoofMap) (order : List Nat) (clock : Nat → Int) (k : Nat)
    (hk : k ∈ (cleanOldTick s order clock).spoofs) : k ∈ s.spoofs :=
  mem_of_lookup_eq (cleanLoop_lookup clock order 0 s.spoofs k) hk

/-- Every id with a Registration in a reachable registry was passed to
`Register` at some step. -/
theorem ReachableVia.keys_allowed {allowed : Nat → Prop} {s : spoofMap}
    (h : ReachableVia allowed s) : ∀ k, k ∈ s.spoofs → allowed k := by
  induction h with
  | init => intro k hk; exact absurd hk Finmap.not_mem_empty
  | register s sp tSince tNow _ hal ih =>
    intro k hk
    rcases Register_mem s sp tSince tNow k hk with e | hm
    · rw [e]; exact hal
    · exact ih k hm
  | receive s p _ ih => exact fun k hk => ih k (Receive_mem s p k hk)
  | dispatch T tr s order destOrder _ _ _ ih =>
    exact fun k hk => ih k (tick_mem T tr s order destOrder k hk)
  | janitor s order clock _ _ ih =>
    exact fun k hk => ih k (cleanOldTick_mem s order clock k hk)

/-- C5: in a registry reached from the empty one by `Register`, `Receive`,
dispatcher ticks and janitor ticks with no `Register` for id `k`, `Receive` of a
probe with `ProbeId = k` returns `ErrorSpoofNotFound` and leaves the registry as
it was; and in every registry `Receive` returns `ErrorSpoofNotFound` exactly
when there is no Registration for the probe's `ProbeId`. -/
theorem C5_Receive_never_registered (k : Nat) (s : spoofMap)
    (hr : ReachableVia (fun id => id ≠ k) s) (p : Probe) (hp : p.ProbeId = k) :
    Receive s p = (some ErrorSpoofNotFound, s) ∧
    (∀ (s1 : spoofMap) (q : Probe),
      (Receive s1 q).1 = some ErrorSpoofNotFound ↔ s1.spoofs.lookup q.ProbeId = none) := by
  constructor
  · apply Receive_absent
    rw [Finmap.lookup_eq_none, hp]
    intro hk
    exact hr.keys_allowed k hk rfl
  · intro s1 q
    cases h : s1.spoofs.lookup q.ProbeId with
    | none => simp [Receive_absent s1 q h]
    | some spf => simp [Receive_present s1 q spf h]

theorem regMix_reachable : ReachableVia (fun id => id ≠ 99) regMix :=
  .receive _ _ (.receive _ _ (.receive _ _
    (.register _ _ _ _ (.register _ _ _ _ (.register _ _ _ _ (.register _ _ _ _ .init
      (by decide)) (by decide)) (by decide)) (by decide))))

theorem regSwept_reachable : ReachableVia (fun id => id ≠ 99) regSwept :=
  .janitor regSent [4] (fun _ => 100 * Second)
    (.dispatch failTen 0 regMix [4, 2, 1, 3] [11, 10] regMix_reachable (by decide) (by decide))
    (by decide)

theorem C5_witness :
    ReachableVia (fun id => id ≠ 99) regSwept ∧
    (Probe.mk 99 10 [5]).ProbeId = 99 ∧
    regSwept = New ∧
    (Receive regSwept ⟨99, 10, [5]⟩ = (some ErrorSpoofNotFound, regSwept) ∧
      (∀ (s1 : spoofMap) (q : Probe),
        (Receive s1 q).1 = some ErrorSpoofNotFound ↔ s1.spoofs.lookup q.ProbeId = none)) :=
  ⟨regSwept_reachable, rfl, by decide,
    C5_Receive_never_registered 99 regSwept regSwept_reachable ⟨99, 10, [5]⟩ rfl⟩

/-! ## Two dispatcher ticks in a row -/

theorem scanStep_of_no_response (m : GoMap spoof) (d : GoMap (List Probe)) (id : Nat)
    (h : response m id = none) : scanStep (m, d) id = (m, d) := by
  unfold response at h
  unfold scanStep
  cases hl : m.lookup id with
  | none => rfl
  | some spf =>
    cases hp : spf.probe with
    | none => simp [hp]
    | some p => simp [hl, hp] at h

theorem scan_of_no_response (order : List Nat) (m : GoMap spoof) (d : GoMap (List Probe))
    (h : ∀ k, response m k = none) : order.foldl scanStep (m, d) = (m, d) := by
  induction order with
  | nil => rfl
  | cons id rest ih => rw [List.foldl_cons, scanStep_of_no_response m d id (h id), ih]

theorem send_fold_of_no_dests {σ : Type} (T : Sender σ) (destOrder : List Nat)
    (st : SendState σ) (h : st.dests = ∅) : destOrder.foldl (sendStep T) st = st := by
  induction destOrder with
  | nil => rfl
  | cons ip rest ih =>
    have hs : sendStep T st ip = st := by
      unfold sendStep
      rw [h, Finmap.lookup_empty]
    rw [List.foldl_cons, hs, ih]

/-- After a dispatcher tick no Registration holds a response. -/
theorem tick_response {σ : Type} (T : Sender σ) (tr : σ) (s : spoofMap)
    (order destOrder : List Nat) (ho : IterOrder order s.spoofs) (k : Nat) :
    response (sendSpoofsTick T tr s order destOrder).state.spoofs k = none := by
  unfold response
  rw [tick_lookup T tr s order destOrder ho]
  by_cases hr : (response s.spoofs k).isSome
  · simp [hr]
  · simp only [hr, Bool.false_eq_true, if_false]
    simpa [response] using hr

/-- A dispatcher tick on a registry without responses does nothing. -/
theorem tick_of_no_response {σ : Type} (T : Sender σ) (tr : σ) (s : spoofMap)
    (order destOrder : List Nat) (h : ∀ k, response s.spoofs k = none) :
    (sendSpoofsTick T tr s order destOrder).state = s ∧
    (sendSpoofsTick T tr s order destOrder).sends.calls = [] ∧
    (sendSpoofsTick T tr s order destOrder).sends.transport = tr := by
  have hs : scan order s.spoofs = (s.spoofs, ∅) := scan_of_no_response order s.spoofs ∅ h
  refine ⟨?_, ?_, ?_⟩
  · rw [tick_state, hs]
  · unfold sendSpoofsTick
    simp only [hs]
    rw [send_fold_of_no_dests T destOrder _ rfl]
  · unfold sendSpoofsTick
    simp only [hs]
    rw [send_fold_of_no_dests T destOrder _ rfl]

/-- C11: when a dispatcher tick is followed at once by a second one, with the
same Sender in the state the first tick left it in and whatever the iteration
orders of the second tick, the second tick makes no call of `Send` and leaves
the registry as the first tick left it; so nothing is handed to `Send` twice. -/
theorem C11_second_tick_idle {σ : Type} (T : Sender σ) (tr : σ) (s : spoofMap)
    (order destOrder order2 destOrder2 : List Nat) (ho : IterOrder order s.spoofs) :
    (sendSpoofsTick T (sendSpoofsTick T tr s order destOrder).sends.transport
        (sendSpoofsTick T tr s order destOrder).state order2 destOrder2).sends.calls = [] ∧
    (sendSpoofsTick T (sendSpoofsTick T tr s order destOrder).sends.transport
        (sendSpoofsTick T tr s order destOrder).state order2 destOrder2).state =
      (sendSpoofsTick T tr s order destOrder).state := by
  have h := tick_of_no_response T (sendSpoofsTick T tr s order destOrder).sends.transport
    (sendSpoofsTick T tr s order destOrder).state order2 destOrder2
    (tick_response T tr s order destOrder ho)
  exact ⟨h.2.1, h.1⟩

theorem C11_witness :
    IterOrder [4, 2, 1, 3] regMix.spoofs ∧
    (sendSpoofsTick failTen 0 regMix [4, 2, 1, 3] [11, 10]).sends.calls =
      [([⟨3, 11, [3]⟩], 11), ([⟨2, 10, [2]⟩, ⟨1, 10, [1]⟩], 10)] ∧
    ((sendSpoofsTick failTen (sendSpoofsTick failTen 0 regMix [4, 2, 1, 3] [11, 10]).sends.transport
        (sendSpoofsTick failTen 0 regMix [4, 2, 1, 3] [11, 10]).state [4] []).sends.calls = [] ∧
      (sendSpoofsTick failTen (sendSpoofsTick failTen 0 regMix [4, 2, 1, 3] [11, 10]).sends.transport
        (sendSpoofsTick failTen 0 regMix [4, 2, 1, 3] [11, 10]).state [4] []).state =
      (sendSpoofsTick failTen 0 regMix [4, 2, 1, 3] [11, 10]).state) :=
  ⟨by decide, by decide,
    C11_second_tick_idle failTen 0 regMix [4, 2, 1, 3] [11, 10] [4] [] (by decide)⟩

/-! ## The janitor tick, entry by entry -/

theorem cleanLoop_cons_none (clock : Nat → Int) (id : Nat) (rest : List Nat) (count : Nat)
    (m : GoMap spoof) (h : m.lookup id = none) :
    cleanLoop clock (id :: rest) count m = cleanLoop clock rest count m := by
  rw [cleanLoop]
  simp [h]

theorem cleanLoop_cons_some (clock : Nat → Int) (id : Nat) (rest : List Nat) (count : Nat)
    (m : GoMap spoof) (spf : spoof) (h : m.lookup id = some spf) :
    cleanLoop clock (id :: rest) count m =
      if count + 1 = 10000 then sweepAt (clock count) id spf m
      else cleanLoop clock rest (count + 1) (sweepAt (clock count) id spf m) := by
  rw [cleanLoop]
  simp only [h, sweepAt]

theorem sweepAt_lookup_ne (now : Int) (id : Nat) (spf : spoof) (m : GoMap spoof) (k : Nat)
    (hk : k ≠ id) : (sweepAt now id spf m).lookup k = m.lookup k := by
  unfold sweepAt
  split_ifs
  · rw [Finmap.lookup_erase_ne hk, Finmap.lookup_insert_of_ne _ hk]
  · rfl

theorem sweepAt_stale (now : Int) (id : Nat) (spf : spoof) (m : GoMap spoof)
    (h : now - spf.t > 60 * Second) : (sweepAt now id spf m).lookup id = none := by
  have hs : Since now spf.t > Second * 60 := by
    rw [Since_gt_iff]; omega
  unfold sweepAt
  rw [if_pos hs]
  exact Finmap.lookup_erase _ _

theorem sweepAt_fresh (now : Int) (id : Nat) (spf : spoof) (m : GoMap spoof)
    (h : now - spf.t ≤ 60 * Second) : sweepAt now id spf m = m := by
  have hs : ¬ Since now spf.t > Second * 60 := by
    rw [Since_gt_iff]; omega
  unfold sweepAt
  rw [if_neg hs]

/-- A Registration whose age is at most sixty seconds at every clock reading
comes out of the janitor loop as it went in. -/
theorem cleanLoop_keeps_fresh (clock : Nat → Int) (k : Nat) (spf : spoof)
    (hage : ∀ n, clock n - spf.t ≤ 60 * Second) (order : List Nat) (count : Nat)
    (m : GoMap spoof) (hl : m.lookup k = some spf) :
    (cleanLoop clock order count m).lookup k = some spf := by
  induction order generalizing count m with
  | nil => simpa [cleanLoop] using hl
  | cons id rest ih =>
    cases h : m.lookup id with
    | none =>
      rw [cleanLoop_cons_none clock id rest count m h]
      exact ih count m hl
    | some spf1 =>
      rw [cleanLoop_cons_some clock id rest count m spf1 h]
      have hm1 : (sweepAt (clock count) id spf1 m).lookup k = some spf := by
        by_cases hk : k = id
        · subst hk
          rw [hl] at h
          cases h
          rw [sweepAt_fresh _ _ _ _ (hage count)]
          exact hl
        · rw [sweepAt_lookup_ne _ _ _ _ _ hk]
          exact hl
      split_ifs
      · exact hm1
      · exact ih (count + 1) _ hm1

/-- A Registration the loop reaches before the counter hits the cap, and whose
age is more than sixty seconds at every clock reading, is gone afterwards. -/
theorem cleanLoop_removes_stale (clock : Nat → Int) (k : Nat) (spf : spoof)
    (hage : ∀ n, clock n - spf.t > 60 * Second) (order : List Nat) (count : Nat)
    (m : GoMap spoof) (hk : k ∈ order) (hcap : count + order.length ≤ 10000)
    (hl : m.lookup k = some spf) :
    (cleanLoop clock order count m).lookup k = none := by
  induction order generalizing count m with
  | nil => simp at hk
  | cons id rest ih =>
    rw [List.length_cons] at hcap
    cases h : m.lookup id with
    | none =>
      rw [cleanLoop_cons_none clock id rest count m h]
      have hne : k ≠ id := by
        rintro rfl
        rw [hl] at h
        cases h
      have hkr : k ∈ rest := by
        rcases List.mem_cons.1 hk with e | e
        · exact absurd e hne
        · exact e
      exact ih count m hkr (by omega) hl
    | some spf1 =>
      rw [cleanLoop_cons_some clock id rest count m spf1 h]
      by_cases hke : k = id
      · subst hke
        rw [hl] at h
        cases h
        have hgone : (sweepAt (clock count) k spf m).lookup k = none :=
          sweepAt_stale _ _ _ _ (hage count)
        split_ifs
        · exact hgone
        · rcases cleanLoop_lookup clock rest (count + 1) (sweepAt (clock count) k spf m) k with
            hn | he
          · exact hn
          · rw [he, hgone]
      · have hkr : k ∈ rest := by
          rcases List.mem_cons.1 hk with e | e
          · exact absurd e hke
          · exact e
        have hpos : 0 < rest.length := List.length_pos_of_mem hkr
        have hc : ¬ count + 1 = 10000 := by omega
        rw [if_neg hc]
        refine ih (count + 1) _ hkr (by omega) ?_
        rw [sweepAt_lookup_ne _ _ _ _ _ hke]
        exact hl

/-- The janitor loop leaves alone every key outside the part of the order it
walks before the counter hits the cap. -/
theorem cleanLoop_frame (clock : Nat → Int) (k : Nat) (order : List Nat) (count : Nat)
    (m : GoMap spoof) (hnd : order.Nodup) (hin : ∀ id, id ∈ order → id ∈ m)
    (hc : count < 10000) (hk : k ∉ order.take (10000 - count)) :
    (cleanLoop clock order count m).lookup k = m.lookup k := by
  induction order generalizing count m with
  | nil => simp [cleanLoop]
  | cons id rest ih =>
    rw [List.nodup_cons] at hnd
    obtain ⟨spf, h⟩ := Finmap.mem_iff.1 (hin id (List.mem_cons_self id rest))
    rw [cleanLoop_cons_some clock id rest count m spf h]
    have ht : 10000 - count = (10000 - (count + 1)) + 1 := by omega
    rw [ht, List.take_succ_cons, List.mem_cons, not_or] at hk
    have hm1 : (sweepAt (clock count) id spf m).lookup k = m.lookup k :=
      sweepAt_lookup_ne _ _ _ _ _ hk.1
    split_ifs with hcap
    · exact hm1
    · rw [← hm1]
      refine ih (count + 1) _ hnd.2 ?_ (by omega) hk.2
      intro id1 hid1
      have hne : id1 ≠ id := fun e => hnd.1 (e ▸ hid1)
      rw [← Finmap.lookup_isSome, sweepAt_lookup_ne _ _ _ _ _ hne, Finmap.lookup_isSome]
      exact hin id1 (List.mem_cons_of_mem id hid1)

/-- Among the keys the janitor loop walks before the counter hits the cap, a
Registration whose age is more than sixty seconds at every clock reading is
gone afterwards, whatever its `probe` field holds. -/
theorem cleanLoop_removes_walked (clock : Nat → Int) (k : Nat) (spf : spoof)
    (hage : ∀ n, clock n - spf.t > 60 * Second) (order : List Nat) (count : Nat)
    (m : GoMap spoof) (hnd : order.Nodup) (hin : ∀ id, id ∈ order → id ∈ m)
    (hc : count < 10000) (hk : k ∈ order.take (10000 - count))
    (hl : m.lookup k = some spf) :
    (cleanLoop clock order count m).lookup k = none := by
  induction order generalizing count m with
  | nil => simp at hk
  | cons id rest ih =>
    rw [List.nodup_cons] at hnd
    obtain ⟨spf1, h⟩ := Finmap.mem_iff.1 (hin id (List.mem_cons_self id rest))
    rw [cleanLoop_cons_some clock id rest count m spf1 h]
    have ht : 10000 - count = (10000 - (count + 1)) + 1 := by omega
    rw [ht, List.take_succ_cons, List.mem_cons] at hk
    by_cases hke : k = id
    · subst hke
      rw [hl] at h
      cases h
      have hgone : (sweepAt (clock count) k spf m).lookup k = none :=
        sweepAt_stale _ _ _ _ (hage count)
      split_ifs
      · exact hgone
      · rcases cleanLoop_lookup clock rest (count + 1) (sweepAt (clock count) k spf m) k with
          hn | he
        · exact hn
        · rw [he, hgone]
    · have hkr : k ∈ rest.take (10000 - (count + 1)) := by
        rcases hk with e | e
        · exact absurd e hke
        · exact e
      have hcap : ¬ count + 1 = 10000 := by
        intro e
        rw [e] at hkr
        simp at hkr
      rw [if_neg hcap]
      refine ih (count + 1) _ hnd.2 ?_ (by omega) hkr ?_
      · intro id1 hid1
        have hne : id1 ≠ id := fun e => hnd.1 (e ▸ hid1)
        rw [← Finmap.lookup_isSome, sweepAt_lookup_ne _ _ _ _ _ hne, Finmap.lookup_isSome]
        exact hin id1 (List.mem_cons_of_mem id hid1)
      · rw [sweepAt_lookup_ne _ _ _ _ _ hke]
        exact hl

theorem IterOrder.length_eq {V : Type} {order : List Nat} {m : GoMap V}
    (h : IterOrder order m) : order.length = m.keys.card := by
  rw [← h.2, List.toFinset_card_of_nodup h.1]

/-! ## The janitor tick as a whole -/

/-- C18: a janitor tick never removes or changes a Registration whose age is at
most sixty seconds at the clock readings of the tick (for a tick at one time
`now`, every reading is `now`): it is there afterwards with the same creation
time, request and response, whatever the iteration order. -/
theorem C18_janitor_keeps_fresh (s : spoofMap) (order : List Nat) (clock : Nat → Int)
    (k : Nat) (spf : spoof) (hl : s.spoofs.lookup k = some spf)
    (hage : ∀ n, clock n - spf.t ≤ 60 * Second) :
    (cleanOldTick s order clock).spoofs.lookup k = some spf :=
  cleanLoop_keeps_fresh clock k spf hage order 0 s.spoofs hl

theorem C18_witness :
    regAp.spoofs.lookup 2 = some { probe := some prA, t := 0, spoof := spA } ∧
    (∀ n : Nat, (fun _ : Nat => 60 * Second) n - (0 : Int) ≤ 60 * Second) ∧
    (cleanOldTick regAp [2] (fun _ => 60 * Second)).spoofs.lookup 2 =
      some { probe := some prA, t := 0, spoof := spA } :=
  ⟨by decide, fun _ => (by decide : 60 * Second - (0 : Int) ≤ 60 * Second),
    C18_janitor_keeps_fresh regAp [2] (fun _ => 60 * Second) 2
      { probe := some prA, t := 0, spoof := spA } (by decide) (fun _ => (by decide : 60 * Second - (0 : Int) ≤ 60 * Second))⟩

/-- C13 (as stated) fails: the Registration for id 2 holds the response `prA`
and was created at time 0; a janitor tick at time `61 * Second` removes it. -/
theorem C13_counterexample :
    IterOrder [2] regAp.spoofs ∧
    regAp.spoofs.lookup 2 = some { probe := some prA, t := 0, spoof := spA } ∧
    (cleanOldTick regAp [2] (fun _ => 61 * Second)).spoofs.lookup 2 = none := by
  decide

/-- C13 (as amended): a janitor tick removes a Registration on its age alone,
whether or not a response is attached.  For every registry, clock and
iteration order: a Registration that has a response and whose age is at most
sixty seconds at the clock readings of the tick is still there afterwards,
with that response; a Registration that is gone after the tick had an age of
more than sixty seconds at some reading; and a Registration among the first
10,000 of the iteration order whose age is more than sixty seconds at the
readings is gone afterwards, with or without a response (for a tick at one
time `now`, every reading is `now`). -/
theorem C13_janitor_evicts_on_age_alone (s : spoofMap) (order : List Nat)
    (clock : Nat → Int) (ho : IterOrder order s.spoofs) :
    (∀ k spf p, s.spoofs.lookup k = some spf → spf.probe = some p →
      (∀ n, clock n - spf.t ≤ 60 * Second) →
      (cleanOldTick s order clock).spoofs.lookup k = some spf ∧
      response (cleanOldTick s order clock).spoofs k = some p) ∧
    (∀ k spf, s.spoofs.lookup k = some spf →
      (cleanOldTick s order clock).spoofs.lookup k = none →
      ∃ n, clock n - spf.t > 60 * Second) ∧
    (∀ k spf, s.spoofs.lookup k = some spf → k ∈ order.take 10000 →
      (∀ n, clock n - spf.t > 60 * Second) →
      (cleanOldTick s order clock).spoofs.lookup k = none) ∧
    (∀ k spf p, s.spoofs.lookup k = some spf → spf.probe = some p →
      k ∈ order.take 10000 → (∀ n, clock n - spf.t > 60 * Second) →
      (cleanOldTick s order clock).spoofs.lookup k = none ∧
      response (cleanOldTick s order clock).spoofs k = none) := by
  have hC : ∀ k spf, s.spoofs.lookup k = some spf → k ∈ order.take 10000 →
      (∀ n, clock n - spf.t > 60 * Second) →
      (cleanOldTick s order clock).spoofs.lookup k = none := by
    intro k spf hl hk hage
    exact cleanLoop_removes_walked clock k spf hage order 0 s.spoofs ho.1
      (fun id hid => (ho.mem_iff id).1 hid) (by omega) hk hl
  refine ⟨?_, ?_, hC, ?_⟩
  · intro k spf p hl hp hage
    have h1 : (cleanOldTick s order clock).spoofs.lookup k = some spf :=
      cleanLoop_keeps_fresh clock k spf hage order 0 s.spoofs hl
    exact ⟨h1, by simp [response, h1, hp]⟩
  · intro k spf hl hgone
    by_contra hno
    have hall : ∀ n, clock n - spf.t ≤ 60 * Second := by
      intro n
      by_contra hn
      exact hno ⟨n, by omega⟩
    have h2 : (cleanOldTick s order clock).spoofs.lookup k = some spf :=
      cleanLoop_keeps_fresh clock k spf hall order 0 s.spoofs hl
    rw [hgone] at h2
    cases h2
  · intro k spf p hl _ hk hage
    have hg := hC k spf hl hk hage
    exact ⟨hg, by simp [response, hg]⟩

theorem C13_witness :
    IterOrder [2, 1] regTwoAges.spoofs ∧
    regTwoAges.spoofs.lookup 1 =
      some { probe := some ⟨1, 10, [1]⟩, t := 0, spoof := ⟨1, 0, 0, 0⟩ } ∧
    regTwoAges.spoofs.lookup 2 =
      some { probe := some ⟨2, 11, [2]⟩, t := 50 * Second, spoof := ⟨2, 0, 0, 0⟩ } ∧
    (cleanOldTick regTwoAges [2, 1] (fun _ => 100 * Second)).spoofs.lookup 2 =
      some { probe := some ⟨2, 11, [2]⟩, t := 50 * Second, spoof := ⟨2, 0, 0, 0⟩ } ∧
    (cleanOldTick regTwoAges [2, 1] (fun _ => 100 * Second)).spoofs.lookup 1 = none ∧
    response (cleanOldTick regTwoAges [2, 1] (fun _ => 100 * Second)).spoofs 1 = none :=
  ⟨by decide, by decide, by decide,
    ((C13_janitor_evicts_on_age_alone regTwoAges [2, 1] (fun _ => 100 * Second)
      (by decide)).1 2
      { probe := some ⟨2, 11, [2]⟩, t := 50 * Second, spoof := ⟨2, 0, 0, 0⟩ } ⟨2, 11, [2]⟩
      (by decide) rfl
      (fun _ => (by decide : 100 * Second - 50 * Second ≤ 60 * Second))).1,
    ((C13_janitor_evicts_on_age_alone regTwoAges [2, 1] (fun _ => 100 * Second)
      (by decide)).2.2.2 1
      { probe := some ⟨1, 10, [1]⟩, t := 0, spoof := ⟨1, 0, 0, 0⟩ } ⟨1, 10, [1]⟩
      (by decide) rfl (by decide)
      (fun _ => (by decide : 100 * Second - (0 : Int) > 60 * Second))).1,
    ((C13_janitor_evicts_on_age_alone regTwoAges [2, 1] (fun _ => 100 * Second)
      (by decide)).2.2.2 1
      { probe := some ⟨1, 10, [1]⟩, t := 0, spoof := ⟨1, 0, 0, 0⟩ } ⟨1, 10, [1]⟩
      (by decide) rfl (by decide)
      (fun _ => (by decide : 100 * Second - (0 : Int) > 60 * Second))).2⟩

/-- C12: on a registry of at most 10,000 Registrations, whatever the iteration
order, a janitor tick leaves no Registration whose age is more than sixty
seconds at the clock readings of the tick (for a tick at one time `now`, every
reading is `now`).  Every Registration that remains has a reading at which its
age is at most sixty seconds; a Registration without response and older than
sixty seconds is gone, and `Receive` for its id then returns
`ErrorSpoofNotFound` and changes nothing. -/
theorem C12_janitor_evicts_stale (s : spoofMap) (order : List Nat) (clock : Nat → Int)
    (ho : IterOrder order s.spoofs) (hsize : s.spoofs.keys.card ≤ 10000) :
    (∀ k spf, (cleanOldTick s order clock).spoofs.lookup k = some spf →
      ∃ n, clock n - spf.t ≤ 60 * Second) ∧
    (∀ k spf, s.spoofs.lookup k = some spf → spf.probe = none →
      (∀ n, clock n - spf.t > 60 * Second) →
      (cleanOldTick s order clock).spoofs.lookup k = none ∧
      ∀ p : Probe, p.ProbeId = k →
        Receive (cleanOldTick s order clock) p =
          (some ErrorSpoofNotFound, cleanOldTick s order clock)) := by
  have hlen : 0 + order.length ≤ 10000 := by
    rw [ho.length_eq]; omega
  have hgone : ∀ k spf, s.spoofs.lookup k = some spf →
      (∀ n, clock n - spf.t > 60 * Second) →
      (cleanOldTick s order clock).spoofs.lookup k = none := by
    intro k spf hl hage
    have hk : k ∈ order := (ho.mem_iff k).2 (Finmap.mem_of_lookup_eq_some hl)
    exact cleanLoop_removes_stale clock k spf hage order 0 s.spoofs hk hlen hl
  constructor
  · intro k spf hl
    have hpre : s.spoofs.lookup k = some spf := by
      rcases cleanLoop_lookup clock order 0 s.spoofs k with hn | he
      · have hl2 : (cleanLoop clock order 0 s.spoofs).lookup k = some spf := hl
        rw [hn] at hl2
        cases hl2
      · rw [← he]; exact hl
    by_contra hno
    have hall : ∀ n, clock n - spf.t > 60 * Second := by
      intro n
      by_contra hn
      exact hno ⟨n, by omega⟩
    rw [hgone k spf hpre hall] at hl
    cases hl
  · intro k spf hl _ hage
    have hg := hgone k spf hl hage
    refine ⟨hg, ?_⟩
    intro p hp
    exact Receive_absent _ p (by rw [hp]; exact hg)

theorem C12_witness :
    IterOrder [3] regThree.spoofs ∧
    regThree.spoofs.keys.card ≤ 10000 ∧
    regThree.spoofs.lookup 3 = some { probe := none, t := 0, spoof := ⟨3, 0, 0, 0⟩ } ∧
    (cleanOldTick regThree [3] (fun _ => 61 * Second)).spoofs.lookup 3 = none ∧
    Receive (cleanOldTick regThree [3] (fun _ => 61 * Second)) ⟨3, 10, [3]⟩ =
      (some ErrorSpoofNotFound, cleanOldTick regThree [3] (fun _ => 61 * Second)) :=
  ⟨by decide, by decide, by decide,
    ((C12_janitor_evicts_stale regThree [3] (fun _ => 61 * Second) (by decide) (by decide)).2
      3 { probe := none, t := 0, spoof := ⟨3, 0, 0, 0⟩ } (by decide) rfl
      (fun _ => (by decide : 61 * Second - (0 : Int) > 60 * Second))).1,
    ((C12_janitor_evicts_stale regThree [3] (fun _ => 61 * Second) (by decide) (by decide)).2
      3 { probe := none, t := 0, spoof := ⟨3, 0, 0, 0⟩ } (by decide) rfl
      (fun _ => (by decide : 61 * Second - (0 : Int) > 60 * Second))).2 ⟨3, 10, [3]⟩ rfl⟩

/-- C14: one janitor tick walks at most the first 10,000 keys of the iteration
order.  Every key outside them maps afterwards to what it mapped to before; at
most 10,000 Registrations are removed, so the registry holds afterwards at
least as many Registrations as before less 10,000. -/
theorem C14_janitor_cap (s : spoofMap) (order : List Nat) (clock : Nat → Int)
    (ho : IterOrder order s.spoofs) :
    (order.take 10000).length ≤ 10000 ∧
    (∀ k, k ∉ order.take 10000 →
      (cleanOldTick s order clock).spoofs.lookup k = s.spoofs.lookup k) ∧
    (s.spoofs.keys \ (cleanOldTick s order clock).spoofs.keys).card ≤ 10000 ∧
    s.spoofs.keys.card ≤ (cleanOldTick s order clock).spoofs.keys.card + 10000 := by
  have hlen : (order.take 10000).length ≤ 10000 := by
    rw [List.length_take]; omega
  have hframe : ∀ k, k ∉ order.take 10000 →
      (cleanOldTick s order clock).spoofs.lookup k = s.spoofs.lookup k := by
    intro k hk
    exact cleanLoop_frame clock k order 0 s.spoofs ho.1
      (fun id hid => (ho.mem_iff id).1 hid) (by omega) hk
  have hsub : s.spoofs.keys \ (cleanOldTick s order clock).spoofs.keys ⊆
      (order.take 10000).toFinset := by
    intro k hk
    rw [Finset.mem_sdiff, Finmap.mem_keys, Finmap.mem_keys] at hk
    rw [List.mem_toFinset]
    by_contra hnot
    apply hk.2
    rw [← Finmap.lookup_isSome, hframe k hnot, Finmap.lookup_isSome]
    exact hk.1
  have hcard : (s.spoofs.keys \ (cleanOldTick s order clock).spoofs.keys).card ≤ 10000 :=
    le_trans (Finset.card_le_card hsub)
      (le_trans (List.toFinset_card_le _) hlen)
  refine ⟨hlen, hframe, hcard, ?_⟩
  have h := Finset.le_card_sdiff (cleanOldTick s order clock).spoofs.keys s.spoofs.keys
  omega

theorem C14_witness :
    IterOrder [4, 2, 1, 3] regMix.spoofs ∧
    cleanOldTick regMix [4, 2, 1, 3] (fun _ => 100 * Second) = New ∧
    ((List.take 10000 [4, 2, 1, 3]).length ≤ 10000 ∧
      (∀ k, k ∉ List.take 10000 [4, 2, 1, 3] →
        (cleanOldTick regMix [4, 2, 1, 3] (fun _ => 100 * Second)).spoofs.lookup k =
          regMix.spoofs.lookup k) ∧
      (regMix.spoofs.keys \
        (cleanOldTick regMix [4, 2, 1, 3] (fun _ => 100 * Second)).spoofs.keys).card ≤ 10000 ∧
      regMix.spoofs.keys.card ≤
        (cleanOldTick regMix [4, 2, 1, 3] (fun _ => 100 * Second)).spoofs.keys.card + 10000) :=
  ⟨by decide, by decide,
    C14_janitor_cap regMix [4, 2, 1, 3] (fun _ => 100 * Second) (by decide)⟩

/-! ## Calls on different ids -/

theorem Call.run_lookup_ne (o : Call) (s : spoofMap) (k : Nat) (hk : k ≠ o.id) :
    (o.run s).2.spoofs.lookup k = s.spoofs.lookup k := by
  cases o with
  | register sp tSince tNow =>
    simp only [Call.id] at hk
    simp only [Call.run]
    cases h : s.spoofs.lookup sp.Id with
    | none =>
      rw [Register_absent s sp tSince tNow h]
      exact Finmap.lookup_insert_of_ne _ hk
    | some spf =>
      by_cases hage : tSince - spf.t ≤ Second * 60
      · rw [Register_fresh s sp tSince tNow spf h hage]
      · rw [Register_stale s sp tSince tNow spf h (by omega)]
        exact Finmap.lookup_insert_of_ne _ hk
  | receive p =>
    simp only [Call.id] at hk
    simp only [Call.run]
    cases h : s.spoofs.lookup p.ProbeId with
    | none => rw [Receive_absent s p h]
    | some spf =>
      rw [Receive_present s p spf h]
      exact Finmap.lookup_insert_of_ne _ hk

/-- What a call returns and writes depends only on the entry under its id: on
two registries that agree there, it returns the same result and either leaves
both alone or stores the same record under its id in both. -/
theorem Call.run_congr (o : Call) (s s1 : spoofMap)
    (h : s.spoofs.lookup o.id = s1.spoofs.lookup o.id) :
    (o.run s).1 = (o.run s1).1 ∧
    (((o.run s).2 = s ∧ (o.run s1).2 = s1) ∨
      ∃ v, (o.run s).2 = ⟨s.spoofs.insert o.id v⟩ ∧ (o.run s1).2 = ⟨s1.spoofs.insert o.id v⟩) := by
  cases o with
  | register sp tSince tNow =>
    simp only [Call.id] at h
    simp only [Call.run, Call.id]
    cases h0 : s.spoofs.lookup sp.Id with
    | none =>
      have h1 : s1.spoofs.lookup sp.Id = none := by rw [← h, h0]
      rw [Register_absent s sp tSince tNow h0, Register_absent s1 sp tSince tNow h1]
      exact ⟨rfl, Or.inr ⟨_, rfl, rfl⟩⟩
    | some spf =>
      have h1 : s1.spoofs.lookup sp.Id = some spf := by rw [← h, h0]
      by_cases hage : tSince - spf.t ≤ Second * 60
      · rw [Register_fresh s sp tSince tNow spf h0 hage,
          Register_fresh s1 sp tSince tNow spf h1 hage]
        exact ⟨rfl, Or.inl ⟨rfl, rfl⟩⟩
      · rw [Register_stale s sp tSince tNow spf h0 (by omega),
          Register_stale s1 sp tSince tNow spf h1 (by omega)]
        exact ⟨rfl, Or.inr ⟨_, rfl, rfl⟩⟩
  | receive p =>
    simp only [Call.id] at h
    simp only [Call.run, Call.id]
    cases h0 : s.spoofs.lookup p.ProbeId with
    | none =>
      have h1 : s1.spoofs.lookup p.ProbeId = none := by rw [← h, h0]
      rw [Receive_absent s p h0, Receive_absent s1 p h1]
      exact ⟨rfl, Or.inl ⟨rfl, rfl⟩⟩
    | some spf =>
      have h1 : s1.spoofs.lookup p.ProbeId = some spf := by rw [← h, h0]
      rw [Receive_present s p spf h0, Receive_present s1 p spf h1]
      exact ⟨rfl, Or.inr ⟨_, rfl, rfl⟩⟩

/-- C15: two calls, each a `Register` or a `Receive` with its own clock
readings, that concern different ids commute: made in either order on any
registry, each returns the same result and the final registry is the same. -/
theorem C15_calls_commute (s : spoofMap) (o1 o2 : Call) (hne : o1.id ≠ o2.id) :
    (o1.run s).1 = (o1.run (o2.run s).2).1 ∧
    (o2.run (o1.run s).2).1 = (o2.run s).1 ∧
    (o2.run (o1.run s).2).2 = (o1.run (o2.run s).2).2 := by
  have hA := Call.run_congr o1 s (o2.run s).2 (Call.run_lookup_ne o2 s o1.id hne).symm
  have hB := Call.run_congr o2 s (o1.run s).2
    (Call.run_lookup_ne o1 s o2.id (fun e => hne e.symm)).symm
  refine ⟨hA.1, hB.1.symm, ?_⟩
  rcases hA.2 with ⟨a1, a2⟩ | ⟨v1, a1, a2⟩ <;> rcases hB.2 with ⟨b1, b2⟩ | ⟨v2, b1, b2⟩
  · rw [b2, a2, a1, b1]
  · rw [b2, a2, a1, b1]
  · rw [b2, a2, a1, b1]
  · rw [b2, a2, a1, b1]
    simp only
    rw [Finmap.insert_insert_of_ne _ hne]

theorem C15_witness :
    (Call.register ⟨5, 1, 2, 3⟩ 7 8).id ≠ (Call.receive ⟨1, 10, [1]⟩).id ∧
    ((Call.register ⟨5, 1, 2, 3⟩ 7 8).run regFour).1 = none ∧
    ((Call.receive ⟨1, 10, [1]⟩).run regFour).1 = none ∧
    (((Call.register ⟨5, 1, 2, 3⟩ 7 8).run regFour).1 =
        ((Call.register ⟨5, 1, 2, 3⟩ 7 8).run
          ((Call.receive ⟨1, 10, [1]⟩).run regFour).2).1 ∧
      ((Call.receive ⟨1, 10, [1]⟩).run
          ((Call.register ⟨5, 1, 2, 3⟩ 7 8).run regFour).2).1 =
        ((Call.receive ⟨1, 10, [1]⟩).run regFour).1 ∧
      ((Call.receive ⟨1, 10, [1]⟩).run
          ((Call.register ⟨5, 1, 2, 3⟩ 7 8).run regFour).2).2 =
        ((Call.register ⟨5, 1, 2, 3⟩ 7 8).run
          ((Call.receive ⟨1, 10, [1]⟩).run regFour).2).2) :=
  ⟨by decide, by decide, by decide,
    C15_calls_commute regFour (Call.register ⟨5, 1, 2, 3⟩ 7 8) (Call.receive ⟨1, 10, [1]⟩)
      (by decide)⟩

/-! ## Ids of reachable registries -/

theorem Register_lookup_some (s : spoofMap) (sp : Spoof) (tSince tNow : Int) (k : Nat)
    (spf : spoof) (h : (Register s sp tSince tNow).2.spoofs.lookup k = some spf) :
    (k = sp.Id ∧ spf = { probe := none, t := tNow, spoof := sp }) ∨
      s.spoofs.lookup k = some spf := by
  by_cases hk : k = sp.Id
  · subst hk
    cases h0 : s.spoofs.lookup sp.Id with
    | none =>
      rw [Register_absent s sp tSince tNow h0] at h
      simp only [Finmap.lookup_insert, Option.some.injEq] at h
      exact Or.inl ⟨rfl, h.symm⟩
    | some spf0 =>
      by_cases hage : tSince - spf0.t ≤ Second * 60
      · rw [Register_fresh s sp tSince tNow spf0 h0 hage, h0] at h
        exact Or.inr h
      · rw [Register_stale s sp tSince tNow spf0 h0 (by omega)] at h
        simp only [Finmap.lookup_insert, Option.some.injEq] at h
        exact Or.inl ⟨rfl, h.symm⟩
  · have hne : k ≠ (Call.register sp tSince tNow).id := hk
    have := Call.run_lookup_ne (Call.register sp tSince tNow) s k hne
    simp only [Call.run] at this
    rw [this] at h
    exact Or.inr h

theorem Receive_lookup_some (s : spoofMap) (p : Probe) (k : Nat) (spf : spoof)
    (h : (Receive s p).2.spoofs.lookup k = some spf) :
    (k = p.ProbeId ∧ ∃ spf0, s.spoofs.lookup k = some spf0 ∧
        spf = { spf0 with probe := some p }) ∨
      s.spoofs.lookup k = some spf := by
  by_cases hk : k = p.ProbeId
  · subst hk
    cases h0 : s.spoofs.lookup p.ProbeId with
    | none =>
      rw [Receive_absent s p h0, h0] at h
      cases h
    | some spf0 =>
      rw [Receive_present s p spf0 h0] at h
      simp only [Finmap.lookup_insert, Option.some.injEq] at h
      exact Or.inl ⟨rfl, spf0, rfl, h.symm⟩
  · have hne : k ≠ (Call.receive p).id := hk
    have := Call.run_lookup_ne (Call.receive p) s k hne
    simp only [Call.run] at this
    rw [this] at h
    exact Or.inr h

theorem lookup_some_of_shrunk {V : Type} {m₁ m₂ : GoMap V} {k : Nat} {v : V}
    (h : m₁.lookup k = none ∨ m₁.lookup k = m₂.lookup k) (hv : m₁.lookup k = some v) :
    m₂.lookup k = some v := by
  rcases h with h | h
  · rw [h] at hv; cases hv
  · rw [← h]; exact hv

theorem tick_lookup_shrunk {σ : Type} (T : Sender σ) (tr : σ) (s : spoofMap)
    (order destOrder : List Nat) (k : Nat) :
    (sendSpoofsTick T tr s order destOrder).state.spoofs.lookup k = none ∨
      (sendSpoofsTick T tr s order destOrder).state.spoofs.lookup k = s.spoofs.lookup k := by
  rw [tick_state, scan_spoofs]
  split_ifs
  · exact Or.inl rfl
  · exact Or.inr rfl

/-- In a reachable registry every Registration sits under the id of its
request and holds, if any, a response with that id. -/
theorem ReachableVia.wellKeyed {allowed : Nat → Prop} {s : spoofMap}
    (h : ReachableVia allowed s) : WellKeyed s := by
  induction h with
  | init =>
    intro k spf hl
    simp [New] at hl
  | register s sp tSince tNow _ _ ih =>
    intro k spf hl
    rcases Register_lookup_some s sp tSince tNow k spf hl with ⟨hk, hs⟩ | hold
    · subst hs
      exact ⟨hk.symm, fun p hp => by simp at hp⟩
    · exact ih k spf hold
  | receive s p _ ih =>
    intro k spf hl
    rcases Receive_lookup_some s p k spf hl with ⟨hk, spf0, h0, hs⟩ | hold
    · subst hs
      refine ⟨(ih k spf0 h0).1, ?_⟩
      intro q hq
      simp only [Option.some.injEq] at hq
      rw [← hq]
      exact hk.symm
    · exact ih k spf hold
  | dispatch T tr s order destOrder _ _ _ ih =>
    intro k spf hl
    exact ih k spf (lookup_some_of_shrunk (tick_lookup_shrunk T tr s order destOrder k) hl)
  | janitor s order clock _ _ ih =>
    intro k spf hl
    exact ih k spf (lookup_some_of_shrunk (cleanLoop_lookup clock order 0 s.spoofs k) hl)

theorem response_eq_some {m : GoMap spoof} {k : Nat} {p : Probe}
    (h : response m k = some p) : ∃ spf, m.lookup k = some spf ∧ spf.probe = some p := by
  unfold response at h
  cases hl : m.lookup k with
  | none => simp [hl] at h
  | some spf => exact ⟨spf, rfl, by simpa [hl] using h⟩

theorem mem_batchFor {m : GoMap spoof} {order : List Nat} {ip : Nat} {p : Probe}
    (h : p ∈ batchFor m order ip) : ∃ k, k ∈ order ∧ response m k = some p := by
  unfold batchFor at h
  rw [List.mem_filter, List.mem_filterMap] at h
  exact h.1

/-- C16: in every registry reachable from the empty one by `Register`,
`Receive`, dispatcher ticks and janitor ticks, a Registration stored under key
`k` has a request with `Id = k` and, if it holds a response, one with
`ProbeId = k`; so every probe a dispatcher tick hands to `Send` is the response
of the Registration stored under the probe's own id, which the tick removed. -/
theorem C16_ids_match (s : spoofMap) (hr : Reachable s) :
    (∀ k spf, s.spoofs.lookup k = some spf →
      spf.spoof.Id = k ∧ ∀ p, spf.probe = some p → p.ProbeId = k) ∧
    (∀ (σ : Type) (T : Sender σ) (tr : σ) (order destOrder : List Nat),
      IterOrder order s.spoofs → IterOrder destOrder (scan order s.spoofs).2 →
      ∀ batch d, (batch, d) ∈ (sendSpoofsTick T tr s order destOrder).sends.calls →
      ∀ p, p ∈ batch →
        ∃ spf, s.spoofs.lookup p.ProbeId = some spf ∧ spf.probe = some p ∧
          spf.spoof.Id = p.ProbeId ∧
          (sendSpoofsTick T tr s order destOrder).state.spoofs.lookup p.ProbeId = none) := by
  have hw : WellKeyed s := ReachableVia.wellKeyed hr
  refine ⟨hw, ?_⟩
  intro σ T tr order destOrder ho hd batch d hmem p hp
  obtain ⟨hb, _⟩ := tick_calls_batch T tr s order destOrder ho.1 hd.1 batch d hmem
  rw [hb] at hp
  obtain ⟨k, _, hresp⟩ := mem_batchFor hp
  obtain ⟨spf, hl, hpr⟩ := response_eq_some hresp
  have hk : p.ProbeId = k := (hw k spf hl).2 p hpr
  subst hk
  refine ⟨spf, hl, hpr, (hw _ spf hl).1, ?_⟩
  rw [tick_lookup T tr s order destOrder ho]
  simp [hresp]

theorem regMix_reachable_all : Reachable regMix :=
  ReachableVia.receive _ _ (.receive _ _ (.receive _ _
    (.register _ _ _ _ (.register _ _ _ _ (.register _ _ _ _ (.register _ _ _ _ .init
      trivial) trivial) trivial) trivial)))

theorem C16_witness :
    Reachable regMix ∧
    regMix.spoofs.lookup 2 = some { probe := some ⟨2, 10, [2]⟩, t := 1, spoof := ⟨2, 0, 0, 0⟩ } ∧
    (∀ k spf, regMix.spoofs.lookup k = some spf →
      spf.spoof.Id = k ∧ ∀ p, spf.probe = some p → p.ProbeId = k) :=
  ⟨regMix_reachable_all, by decide, (C16_ids_match regMix regMix_reachable_all).1⟩

/-! ## The mutex during a dispatcher tick -/

theorem split_before_last (u x : Event) (hx : x ≠ u) (pre post A : List Event)
    (h : pre ++ x :: post = A ++ [u]) : (∀ e, e ∈ pre → e ∈ A) ∧ u ∈ post := by
  induction pre generalizing A with
  | nil =>
    cases A with
    | nil =>
      simp only [List.nil_append, List.cons.injEq] at h
      exact absurd h.1 hx
    | cons a A1 =>
      simp only [List.nil_append, List.cons_append, List.cons.injEq] at h
      refine ⟨fun e he => by simp at he, ?_⟩
      rw [h.2]
      simp
  | cons e pre1 ih =>
    cases A with
    | nil =>
      simp only [List.cons_append, List.nil_append, List.cons.injEq] at h
      have := h.2
      simp at this
    | cons a A1 =>
      simp only [List.cons_append, List.cons.injEq] at h
      obtain ⟨h1, h2⟩ := ih A1 h.2
      refine ⟨?_, h2⟩
      intro e1 he1
      rcases List.mem_cons.1 he1 with e0 | e0
      · rw [e0, h.1]; exact List.mem_cons_self _ _
      · exact List.mem_cons_of_mem _ (h1 e1 e0)

theorem lockHeld_sends (l : List Event) (held : Bool)
    (h : ∀ e, e ∈ l → ∃ probes ip, e = Event.Send probes ip) :
    l.foldl
      (fun held e =>
        match e with
        | Event.Lock => true
        | Event.Unlock => false
        | Event.Send _ _ => held)
      held = held := by
  induction l with
  | nil => rfl
  | cons e rest ih =>
    obtain ⟨probes, ip, he⟩ := h e (List.mem_cons_self _ _)
    subst he
    rw [List.foldl_cons]
    exact ih (fun e1 he1 => h e1 (List.mem_cons_of_mem _ he1))

/-- C17 (as amended): in every dispatcher tick every call of `Send` is made
while the mutex is held: it comes after the `Lock` of the tick and before its
`Unlock`, which is the last event of the tick. -/
theorem C17_send_under_lock {σ : Type} (T : Sender σ) (tr : σ) (s : spoofMap)
    (order destOrder : List Nat) (pre post : List Event) (probes : List Probe) (ip : Nat)
    (h : sendSpoofsEvents T tr s order destOrder = pre ++ Event.Send probes ip :: post) :
    lockHeld pre = true ∧ Event.Lock ∈ pre ∧ Event.Unlock ∉ pre ∧ Event.Unlock ∈ post := by
  unfold sendSpoofsEvents at h
  cases pre with
  | nil => simp at h
  | cons e pre1 =>
    simp only [List.cons_append, List.cons.injEq] at h
    obtain ⟨he, hrest⟩ := h
    subst he
    obtain ⟨hsub, hpost⟩ := split_before_last Event.Unlock (Event.Send probes ip)
      (by simp) pre1 post _ hrest.symm
    have hsend : ∀ e, e ∈ pre1 → ∃ b i, e = Event.Send b i := by
      intro e he
      obtain ⟨c, _, hc⟩ := List.mem_map.1 (hsub e he)
      exact ⟨c.1, c.2, hc.symm⟩
    refine ⟨?_, List.mem_cons_self _ _, ?_, hpost⟩
    · unfold lockHeld
      rw [List.foldl_cons]
      exact lockHeld_sends pre1 true hsend
    · intro hmem
      rcases List.mem_cons.1 hmem with e0 | e0
      · cases e0
      · obtain ⟨b, i, hb⟩ := hsend _ e0
        cases hb

theorem C17_witness :
    sendSpoofsEvents failTen 0 regMix [4, 2, 1, 3] [11, 10] =
      [Event.Lock, Event.Send [⟨3, 11, [3]⟩] 11] ++
        Event.Send [⟨2, 10, [2]⟩, ⟨1, 10, [1]⟩] 10 :: [Event.Unlock] ∧
    (lockHeld [Event.Lock, Event.Send [⟨3, 11, [3]⟩] 11] = true ∧
      Event.Lock ∈ [Event.Lock, Event.Send [⟨3, 11, [3]⟩] 11] ∧
      Event.Unlock ∉ [Event.Lock, Event.Send [⟨3, 11, [3]⟩] 11] ∧
      Event.Unlock ∈ [Event.Unlock]) :=
  ⟨by decide,
    C17_send_under_lock failTen 0 regMix [4, 2, 1, 3] [11, 10]
      [Event.Lock, Event.Send [⟨3, 11, [3]⟩] 11] [Event.Unlock]
      [⟨2, 10, [2]⟩, ⟨1, 10, [1]⟩] 10 (by decide)⟩

/-- C17 (as stated) fails: with one Registration holding a response, the events
of the tick are `Lock`, `Send`, `Unlock`; the call of `Send` is made with the
mutex held and before the `Unlock`, not after it. -/
theorem C17_counterexample :
    sendSpoofsEvents failTen 0 regAp [2] [10] =
      [Event.Lock, Event.Send [prA] 10, Event.Unlock] ∧
    lockHeld [Event.Lock] = true ∧
    ¬ (∀ (pre post : List Event) (probes : List Probe) (ip : Nat),
        sendSpoofsEvents failTen 0 regAp [2] [10] = pre ++ Event.Send probes ip :: post →
        Event.Unlock ∈ pre ∧ lockHeld pre = false) := by
  have he : sendSpoofsEvents failTen 0 regAp [2] [10] =
      [Event.Lock, Event.Send [prA] 10, Event.Unlock] := by decide
  refine ⟨he, by decide, ?_⟩
  intro hall
  have h := (hall [Event.Lock] [Event.Unlock] [prA] 10 he).1
  simp at h

end spoofmap
